import Mathlib

/-!
Formal model of the aircraft tracking store and render-entity matcher of the
waveshare-esp32p4-radar-display firmware (`src/main/aircraft_store.c`,
`src/main/radar_renderer.c`), as a shallow embedding: the fixed C arrays become
Lean lists, C strings become `String` (with `strncpy` truncation made explicit),
machine `uint32_t` tick arithmetic becomes `Nat` arithmetic modulo `2 ^ 32`, and
the float-valued geodesic quantities become rationals, with the transcendental
library routines (`sinf`, `cosf`, `atan2f`, `sqrtf`) abstracted into an
environment of function parameters, since no verified claim depends on their
values.
-/

namespace Radar

/-- First index of the list satisfying the predicate, mirroring the C idiom
`for (i = 0; i < n; i++) if (p(a[i])) return i; return -1;` used by
`find_aircraft` and `find_blip`. -/
def scanIdx (p : α → Bool) : List α → Option Nat
  | [] => none
  | a :: as => if p a then some 0 else (scanIdx p as).map (· + 1)

/-- In-place update of the element at one index, mirroring a C array store
`a[i] = f(a[i])`. Out-of-range indices leave the list unchanged. -/
def listModify (l : List α) (i : Nat) (f : α → α) : List α :=
  match l, i with
  | [], _ => []
  | a :: as, 0 => f a :: as
  | a :: as, n + 1 => a :: listModify as n f

/-- Model of `strncpy(dst, src, n)` into a zero-initialized buffer: keeps the
first `n` characters of the source. -/
def cStrCopy (n : Nat) (s : String) : String := ⟨s.data.take n⟩

/-- Model of the C cast `(int)` applied to a real quantity: truncation toward
zero. -/
def cTruncInt (q : ℚ) : ℤ := if 0 ≤ q then ⌊q⌋ else ⌈q⌉

/-- `uint32_t` subtraction `a - b`, as used for tick ages in
`aircraft_store_prune` (`now - last_seen_ms` wraps modulo `2 ^ 32`). -/
def u32Sub (a b : Nat) : Nat := (a % 2 ^ 32 + (2 ^ 32 - b % 2 ^ 32)) % 2 ^ 32

/-- `MAX_AIRCRAFT` from `aircraft_store.h`. -/
def MAX_AIRCRAFT : Nat := 64

/-- `AIRCRAFT_TIMEOUT_MS` from `aircraft_store.h`: 60 seconds. -/
def AIRCRAFT_TIMEOUT_MS : Nat := 60000

/-- `MAX_AIRCRAFT_BLIPS` from `radar_renderer.c`. -/
def MAX_AIRCRAFT_BLIPS : Nat := 64

/-- Modelled from the spec: `RADAR_RADIUS_NM`, the compile-time default radar
radius, lives in `radar_config.h` which is not under `src/`; the spec's default
display label "RADAR - 50NM", the 50 nm outer range ring, and the main.c
comment "live aircraft within 50nm" all fix it at 50 nautical miles. -/
def RADAR_RADIUS_NM : ℚ := 50

/-- `adsb_aircraft_t` from `adsb_client.h`: one raw report. `hex` is a C
`char[8]`, so it carries at most 7 characters; `callsign` is `char[12]`. -/
structure adsb_aircraft_t where
  hex : String
  callsign : String
  lat : ℚ
  lon : ℚ
  altitude : ℤ
  speed : ℚ
  track : ℚ
  has_position : Bool
  deriving Repr, DecidableEq

/-- `tracked_aircraft_t` from `aircraft_store.h`: one slot of the store. -/
structure tracked_aircraft_t where
  hex : String
  callsign : String
  lat : ℚ
  lon : ℚ
  altitude : ℤ
  speed : ℚ
  track : ℚ
  distance_nm : ℚ
  bearing_deg : ℚ
  screen_x : ℤ
  screen_y : ℤ
  last_seen_ms : Nat
  active : Bool
  has_position : Bool
  deriving Repr, DecidableEq

/-- The zeroed slot produced by `memset(s_aircraft, 0, ...)` in
`aircraft_store_init`. -/
def emptySlot : tracked_aircraft_t :=
  { hex := "", callsign := "", lat := 0, lon := 0, altitude := 0, speed := 0,
    track := 0, distance_nm := 0, bearing_deg := 0, screen_x := 0,
    screen_y := 0, last_seen_ms := 0, active := false, has_position := false }

/-- The store table right after `aircraft_store_init`. -/
def initState : List tracked_aircraft_t := List.replicate MAX_AIRCRAFT emptySlot

/-- Environment of configuration values and transcendental float routines the
store reads: the home location and runtime radius (`s_home_lat`, `s_home_lon`,
`s_radar_radius_nm`), the screen constants from the missing `radar_config.h`
(modelled from the spec as parameters), the value of `M_PI`, and the libm
functions used by `haversine_distance_nm` / `calculate_bearing` (abstracted
whole, as `haversine` and `bearing`) and by `polar_to_screen` (`cosf`,
`sinf`). -/
structure GeoEnv where
  home_lat : ℚ
  home_lon : ℚ
  radar_radius_nm : ℚ
  display_radius : ℚ
  screen_center_x : ℤ
  screen_center_y : ℤ
  pi : ℚ
  cosf : ℚ → ℚ
  sinf : ℚ → ℚ
  haversine : ℚ → ℚ → ℚ → ℚ → ℚ
  bearing : ℚ → ℚ → ℚ → ℚ → ℚ

/-- `polar_to_screen` from `aircraft_store.c` (lines 267-290), with the libm
`cosf`/`sinf`, `M_PI`, and the configuration constants passed explicitly. -/
def polar_to_screen (cosf sinf : ℚ → ℚ) (pi : ℚ)
    (display_radius radar_radius_nm : ℚ) (center_x center_y : ℤ)
    (distance_nm bearing_deg : ℚ) : ℤ × ℤ :=
  let pixels_per_nm := display_radius / radar_radius_nm
  let radius_px := distance_nm * pixels_per_nm
  let angle_rad := (bearing_deg - 90) * pi / 180
  let dx := cTruncInt (radius_px * cosf angle_rad)
  let dy := cTruncInt (radius_px * sinf angle_rad)
  (center_x + dx, center_y + dy)

/-- `find_aircraft` from `aircraft_store.c` (lines 215-223): first active slot
whose stored hex compares `strcmp`-equal to the query. -/
def find_aircraft (st : List tracked_aircraft_t) (hex : String) : Option Nat :=
  scanIdx (fun sl => sl.active && sl.hex == hex) st

/-- The free-slot scan inside `aircraft_store_update` (lines 83-89): first
inactive slot. -/
def findFreeSlot (st : List tracked_aircraft_t) : Option Nat :=
  scanIdx (fun sl => !sl.active) st

/-- The field-overwrite block of `aircraft_store_update` (lines 99-130): copy
the raw report (with `strncpy` truncation), recompute distance, bearing and
screen coordinates, stamp `last_seen_ms`, and activate the slot. -/
def writeSlot (env : GeoEnv) (now : Nat) (a : adsb_aircraft_t)
    (_sl : tracked_aircraft_t) : tracked_aircraft_t :=
  let distance := env.haversine env.home_lat env.home_lon a.lat a.lon
  let bear := env.bearing env.home_lat env.home_lon a.lat a.lon
  let xy := polar_to_screen env.cosf env.sinf env.pi env.display_radius
    env.radar_radius_nm env.screen_center_x env.screen_center_y distance bear
  { hex := cStrCopy 7 a.hex, callsign := cStrCopy 11 a.callsign,
    lat := a.lat, lon := a.lon, altitude := a.altitude, speed := a.speed,
    track := a.track, distance_nm := distance, bearing_deg := bear,
    screen_x := xy.1, screen_y := xy.2, last_seen_ms := now, active := true,
    has_position := true }

/-- One iteration of the report loop in `aircraft_store_update` (lines 74-131):
skip reports without a position; otherwise find the matching active slot, or
failing that the first free slot, and overwrite it; if neither exists the
report is dropped and the capacity-exceeded warning is emitted (counted
here). -/
def updateStep (env : GeoEnv) (now : Nat)
    (acc : List tracked_aircraft_t × Nat) (a : adsb_aircraft_t) :
    List tracked_aircraft_t × Nat :=
  if a.has_position = false then acc
  else
    let idx := match find_aircraft acc.1 a.hex with
      | some i => some i
      | none => findFreeSlot acc.1
    match idx with
    | none => (acc.1, acc.2 + 1)
    | some i => (listModify acc.1 i (writeSlot env now a), acc.2)

/-- `aircraft_store_update` from `aircraft_store.c` (lines 59-145): fold the
report loop over the batch. Returns the new table and the number of reports
dropped with the capacity-exceeded warning. -/
def aircraft_store_update (env : GeoEnv) (now : Nat)
    (st : List tracked_aircraft_t) (batch : List adsb_aircraft_t) :
    List tracked_aircraft_t × Nat :=
  batch.foldl (updateStep env now) (st, 0)

/-- The staleness test of `aircraft_store_prune` (lines 159-161): active and
older than `AIRCRAFT_TIMEOUT_MS`, with `uint32_t` age arithmetic. -/
def isStale (now : Nat) (sl : tracked_aircraft_t) : Bool :=
  sl.active && decide (AIRCRAFT_TIMEOUT_MS < u32Sub now sl.last_seen_ms)

/-- `aircraft_store_prune` from `aircraft_store.c` (lines 147-185): deactivate
every stale active slot, counting them. Nothing else in the slot is touched. -/
def aircraft_store_prune (now : Nat) :
    List tracked_aircraft_t → List tracked_aircraft_t × Nat
  | [] => ([], 0)
  | sl :: rest =>
    let r := aircraft_store_prune now rest
    if isStale now sl then ({ sl with active := false } :: r.1, r.2 + 1)
    else (sl :: r.1, r.2)

/-- `aircraft_store_get_all` from `aircraft_store.c` (lines 187-206): copy out
the active slots in slot order. -/
def aircraft_store_get_all (st : List tracked_aircraft_t) :
    List tracked_aircraft_t :=
  st.filter (·.active)

/-- `aircraft_store_get_count` (the recomputed `s_active_count`). -/
def aircraft_store_get_count (st : List tracked_aircraft_t) : Nat :=
  st.countP (·.active)

/-- `aircraft_blip_t` from `radar_renderer.c` (lines 47-54): one render-entity
slot. The four LVGL object pointers become liveness booleans (`true` iff the
pointer is non-NULL); the `LV_OBJ_FLAG_HIDDEN` state of the two labels and the
velocity line, and the applied blip position, are carried alongside. -/
structure aircraft_blip_t where
  hex : String
  blip : Bool
  label_cs : Bool
  label_alt : Bool
  velocity_line : Bool
  label_cs_shown : Bool
  label_alt_shown : Bool
  velocity_shown : Bool
  pos_x : ℤ
  pos_y : ℤ
  active : Bool
  deriving Repr, DecidableEq

/-- The zeroed blip slot from `memset(s_blips, 0, ...)` in
`radar_renderer_init`. -/
def emptyBlip : aircraft_blip_t :=
  { hex := "", blip := false, label_cs := false, label_alt := false,
    velocity_line := false, label_cs_shown := false, label_alt_shown := false,
    velocity_shown := false, pos_x := 0, pos_y := 0, active := false }

/-- The blip pool right after `radar_renderer_init`. -/
def initBlips : List aircraft_blip_t := List.replicate MAX_AIRCRAFT_BLIPS emptyBlip

/-- The lifecycle decisions the render update emits, in the spec's sense:
`create`/`update` carry whether the callsign and altitude labels are shown
(hidden-flag cleared) this cycle; `drop` is the "no free blip slots" capacity
warning; `delete` is the teardown of a disappeared aircraft's slot. -/
inductive RenderDecision where
  | create (hex : String) (cs_shown alt_shown : Bool)
  | update (hex : String) (cs_shown alt_shown : Bool)
  | drop (hex : String)
  | delete (hex : String)
  deriving Repr, DecidableEq

/-- `find_blip` from `radar_renderer.c` (lines 632-640): first slot with a live
blip object and a `strcmp`-equal stored hex. -/
def find_blip (st : List aircraft_blip_t) (hex : String) : Option Nat :=
  scanIdx (fun sl => sl.blip && sl.hex == hex) st

/-- The free-slot scan inside `radar_renderer_update_aircraft` (lines 490-495):
first slot whose blip object pointer is NULL. -/
def findFreeBlip (st : List aircraft_blip_t) : Option Nat :=
  scanIdx (fun sl => !sl.blip) st

/-- The blip-creation branch of `radar_renderer_update_aircraft` (lines
504-528): allocate the four LVGL objects and copy the hex (with `strncpy`
truncation). -/
def createSlotObjects (t : tracked_aircraft_t) (sl : aircraft_blip_t) :
    aircraft_blip_t :=
  { sl with
    blip := true, label_cs := true, label_alt := true,
    velocity_line := true, hex := cStrCopy 7 t.hex }

/-- The per-aircraft update path of `radar_renderer_update_aircraft` (lines
530-586): move the blip, set label text/visibility from the configured
show-labels preference and the aircraft data, set the velocity vector, and mark
the slot touched. -/
def updateSlotCommon (show_labels : Bool) (t : tracked_aircraft_t)
    (sl : aircraft_blip_t) : aircraft_blip_t :=
  { sl with
    pos_x := t.screen_x - 4, pos_y := t.screen_y - 4,
    label_cs_shown := show_labels && !(t.callsign == ""),
    label_alt_shown := show_labels && decide (0 < t.altitude),
    velocity_shown := decide (0 < t.speed) && decide (0 ≤ t.track),
    active := true }

/-- One iteration of the aircraft loop of `radar_renderer_update_aircraft`
(lines 480-587): cull targets beyond `RADAR_RADIUS_NM`, then find the existing
blip by hex or claim the first free slot (emitting `update` resp. `create`), or
emit the capacity `drop` warning. -/
def renderStep (show_labels : Bool)
    (acc : List aircraft_blip_t × List RenderDecision)
    (t : tracked_aircraft_t) : List aircraft_blip_t × List RenderDecision :=
  if RADAR_RADIUS_NM < t.distance_nm then acc
  else
    match find_blip acc.1 t.hex with
    | some i =>
      (listModify acc.1 i (updateSlotCommon show_labels t),
       acc.2 ++ [RenderDecision.update t.hex
         (show_labels && !(t.callsign == ""))
         (show_labels && decide (0 < t.altitude))])
    | none =>
      match findFreeBlip acc.1 with
      | some j =>
        (listModify acc.1 j
           (fun sl => updateSlotCommon show_labels t (createSlotObjects t sl)),
         acc.2 ++ [RenderDecision.create t.hex
           (show_labels && !(t.callsign == ""))
           (show_labels && decide (0 < t.altitude))])
      | none => (acc.1, acc.2 ++ [RenderDecision.drop t.hex])

/-- `delete_blip` from `radar_renderer.c` (lines 642-662): destroy all four
LVGL objects, zero the stored hex, and clear the active flag. -/
def delete_blip (sl : aircraft_blip_t) : aircraft_blip_t :=
  { sl with
    blip := false, label_cs := false, label_alt := false,
    velocity_line := false, hex := "", active := false }

/-- The stale-blip sweep of `radar_renderer_update_aircraft` (lines 589-594):
tear down (emitting `delete`) every slot holding objects that was not touched
this cycle. -/
def deleteSweep : List aircraft_blip_t →
    List aircraft_blip_t × List RenderDecision
  | [] => ([], [])
  | sl :: rest =>
    let r := deleteSweep rest
    if sl.blip && !sl.active then
      (delete_blip sl :: r.1, RenderDecision.delete sl.hex :: r.2)
    else (sl :: r.1, r.2)

/-- The mark-all-inactive prologue of `radar_renderer_update_aircraft`
(lines 470-474). -/
def markInactive (st : List aircraft_blip_t) : List aircraft_blip_t :=
  st.map fun sl => { sl with active := false }

/-- `radar_renderer_update_aircraft` from `radar_renderer.c` (lines 455-612):
mark every slot untouched, run the aircraft loop, then sweep untouched slots.
Returns the new pool and the decisions in emission order. -/
def radar_renderer_update_aircraft (show_labels : Bool)
    (st : List aircraft_blip_t) (ts : List tracked_aircraft_t) :
    List aircraft_blip_t × List RenderDecision :=
  let r := ts.foldl (renderStep show_labels) (markInactive st, [])
  let d := deleteSweep r.1
  (d.1, r.2 ++ d.2)

/-- Is a decision an `update`? -/
def RenderDecision.isUpdate : RenderDecision → Bool
  | .update _ _ _ => true
  | _ => false

/-- Is a decision a `create`? -/
def RenderDecision.isCreate : RenderDecision → Bool
  | .create _ _ _ => true
  | _ => false

/-- Is a decision the capacity `drop` warning? -/
def RenderDecision.isDrop : RenderDecision → Bool
  | .drop _ => true
  | _ => false

/-! ### Concrete instances used by witnesses and counterexamples -/

/-- A concrete environment for evaluating the store on witness inputs: the
geodesic routines are irrelevant to the properties checked, so dummy values
suffice; the configuration mirrors the defaults (runtime radius 50 NM). -/
def demoEnv : GeoEnv :=
  { home_lat := 0, home_lon := 0, radar_radius_nm := 50, display_radius := 360,
    screen_center_x := 400, screen_center_y := 400, pi := 0,
    cosf := fun _ => 0, sinf := fun _ => 0,
    haversine := fun _ _ _ _ => 0, bearing := fun _ _ _ _ => 0 }

/-- `demoEnv` with the runtime radar radius reconfigured to 10 NM (the slider
minimum), as `aircraft_store_set_radar_radius(10)` would leave it. -/
def demoEnv10 : GeoEnv := { demoEnv with radar_radius_nm := 10 }

/-- A concrete raw report with a valid position. -/
def demoReport : adsb_aircraft_t :=
  { hex := "ABC123", callsign := "QFA1", lat := 1, lon := 1, altitude := 30000,
    speed := 400, track := 90, has_position := true }

/-- A numbered raw report (distinct hex per index). -/
def demoReportN (n : Nat) : adsb_aircraft_t :=
  { demoReport with hex := "h" ++ toString n }

/-- A concrete in-range tracked target as handed to the renderer, with the
given hex and distance. -/
def demoTarget (h : String) (d : ℚ) : tracked_aircraft_t :=
  { emptySlot with
    hex := h, callsign := "CS", altitude := 1000, distance_nm := d,
    last_seen_ms := 0, active := true, has_position := true }

/-- A concrete active store slot (as left by an earlier upsert at tick 0). -/
def demoSlot : tracked_aircraft_t :=
  { emptySlot with hex := "ABC123", last_seen_ms := 0, active := true }

/-- 64 pairwise-distinct one-character hex strings for filling the pools. -/
def hexOf (n : Nat) : String := String.mk [Char.ofNat (48 + n)]

/-- A render-entity slot holding live objects for the given hex, as a previous
render cycle leaves it. -/
def fullBlip (h : String) : aircraft_blip_t :=
  { emptyBlip with
    hex := h, blip := true, label_cs := true, label_alt := true,
    velocity_line := true, label_cs_shown := true, label_alt_shown := true,
    active := true }

/-- A render pool with all 64 slots occupied (hexes `hexOf 0 .. hexOf 63`),
reachable by one render update from the initialized pool. -/
def fullPool : List aircraft_blip_t := (List.range 64).map fun n => fullBlip (hexOf n)

/-- The target set for the C8 counterexample: the aircraft `hexOf 0` has left
and a new aircraft "ZZ" has appeared; the other 63 aircraft persist. All are
in range. -/
def swapSet : List tracked_aircraft_t :=
  demoTarget "ZZ" 1 :: ((List.range 63).map fun n => demoTarget (hexOf (n + 1)) 1)

/-- A render-entity slot holding live objects whose aircraft was not seen this
cycle (untouched, so the sweep will tear it down). -/
def staleBlip : aircraft_blip_t := { fullBlip "AA" with active := false }

/-- The store table reached from the initialized store by upserting the
reports `p` in order (each to a fresh slot): the written slots form a prefix,
the remaining slots are still zeroed. Used to characterize capacity filling. -/
def prefixState (env : GeoEnv) (now : Nat) (p : List adsb_aircraft_t) :
    List tracked_aircraft_t :=
  p.map (fun a => writeSlot env now a emptySlot) ++
    List.replicate (MAX_AIRCRAFT - p.length) emptySlot

/-- A batch of `MAX_AIRCRAFT + 1` distinct fresh reports, for the capacity
witness. -/
def capacityBatch : List adsb_aircraft_t :=
  (List.range (MAX_AIRCRAFT + 1)).map demoReportN

/-- The store's two mutating entry points, as an operation alphabet for
stating reachability invariants. -/
inductive StoreOp where
  | upsert (now : Nat) (batch : List adsb_aircraft_t)
  | prune (now : Nat)
  deriving Repr, DecidableEq

/-- Run one store operation. -/
def runOp (env : GeoEnv) (st : List tracked_aircraft_t) :
    StoreOp → List tracked_aircraft_t
  | .upsert now batch => (aircraft_store_update env now st batch).1
  | .prune now => (aircraft_store_prune now st).1

/-- Run a sequence of store operations from the initialized store. -/
def runOps (env : GeoEnv) (ops : List StoreOp) : List tracked_aircraft_t :=
  ops.foldl (runOp env) initState

/-- Well-formed operation: every report's hex fits its C `char[8]` field
(at most 7 characters), as `adsb_aircraft_t` guarantees. -/
def opWF : StoreOp → Prop
  | .upsert _ batch => ∀ a ∈ batch, a.hex.length ≤ 7
  | .prune _ => True

/-- The C7 invariant: no two active slots hold the same hex id. -/
def uniqueActiveIds (st : List tracked_aircraft_t) : Prop :=
  ∀ (i j : Nat) (sli slj : tracked_aircraft_t), i ≠ j →
    st[i]? = some sli → st[j]? = some slj →
    sli.active = true → slj.active = true → sli.hex ≠ slj.hex

/-- A concrete operation sequence touching every upsert/prune path: insert,
age out, re-insert the same id. -/
def demoOps : List StoreOp :=
  [StoreOp.upsert 0 [demoReport], StoreOp.prune 70000,
   StoreOp.upsert 80000 [demoReport, demoReport]]

/-- The part of a render slot that the per-aircraft matching reads: the blip
object liveness and the stored hex. -/
def blipHex (sl : aircraft_blip_t) : Bool × String := (sl.blip, sl.hex)

/-- Two pools agree on everything `find_blip` can observe. -/
def sameBlips (σ σ' : List aircraft_blip_t) : Prop :=
  ∀ i : Nat, (σ[i]?).map blipHex = (σ'[i]?).map blipHex

/-- Invariant maintained along the per-aircraft loop of a render cycle: every
slot touched this cycle holds a live blip, is the first slot `find_blip`
returns for its own hex, and carries the hex of some in-range target of the
cycle. -/
def renderInv (ts : List tracked_aircraft_t)
    (σ : List aircraft_blip_t) : Prop :=
  ∀ (i : Nat) (sl : aircraft_blip_t), σ[i]? = some sl → sl.active = true →
    sl.blip = true ∧ find_blip σ sl.hex = some i ∧
    ∃ t ∈ ts, ¬RADAR_RADIUS_NM < t.distance_nm ∧ sl.hex = t.hex

/-- State of the pool between two render cycles over the target set `ts`:
every live blip slot is the first `find_blip` answer for its own hex and
mirrors the hex of some in-range target. -/
def poolReady (ts : List tracked_aircraft_t)
    (σ : List aircraft_blip_t) : Prop :=
  ∀ (i : Nat) (sl : aircraft_blip_t), σ[i]? = some sl → sl.blip = true →
    find_blip σ sl.hex = some i ∧
    ∃ t ∈ ts, ¬RADAR_RADIUS_NM < t.distance_nm ∧ sl.hex = t.hex

/-! ### Helper lemmas on the list primitives -/

theorem scanIdx_eq_none_iff {p : α → Bool} {l : List α} :
    scanIdx p l = none ↔ ∀ a ∈ l, p a = false := by
  induction l with
  | nil => simp [scanIdx]
  | cons a as ih =>
    by_cases h : p a
    · simp [scanIdx, h]
    · simp only [scanIdx, if_neg h, Option.map_eq_none', ih, List.mem_cons]
      constructor
      · rintro hall b (rfl | hb)
        · simpa using h
        · exact hall b hb
      · intro hall b hb
        exact hall b (Or.inr hb)

theorem scanIdx_eq_some {p : α → Bool} {l : List α} {i : Nat}
    (h : scanIdx p l = some i) :
    ∃ a, l[i]? = some a ∧ p a = true := by
  induction l generalizing i with
  | nil => simp [scanIdx] at h
  | cons a as ih =>
    by_cases ha : p a
    · simp only [scanIdx, if_pos ha, Option.some.injEq] at h
      subst h
      exact ⟨a, by simp, ha⟩
    · simp only [scanIdx, if_neg ha, Option.map_eq_some'] at h
      obtain ⟨j, hj, rfl⟩ := h
      obtain ⟨b, hb, hpb⟩ := ih hj
      exact ⟨b, by simpa using hb, hpb⟩

theorem scanIdx_first {p : α → Bool} {l : List α} {i : Nat}
    (h : scanIdx p l = some i) :
    ∀ j, j < i → ∀ b, l[j]? = some b → p b = false := by
  induction l generalizing i with
  | nil => simp [scanIdx] at h
  | cons a as ih =>
    by_cases ha : p a
    · simp only [scanIdx, if_pos ha, Option.some.injEq] at h
      omega
    · simp only [scanIdx, if_neg ha, Option.map_eq_some'] at h
      obtain ⟨k, hk, rfl⟩ := h
      intro j hj b hb
      match j with
      | 0 =>
        simp only [List.getElem?_cons_zero, Option.some.injEq] at hb
        subst hb
        simpa using ha
      | j + 1 =>
        simp only [List.getElem?_cons_succ] at hb
        exact ih hk j (by omega) b hb

theorem scanIdx_lt_length {p : α → Bool} {l : List α} {i : Nat}
    (h : scanIdx p l = some i) : i < l.length := by
  obtain ⟨a, ha, -⟩ := scanIdx_eq_some h
  exact (List.getElem?_eq_some.mp ha).1

theorem length_listModify (l : List α) (i : Nat) (f : α → α) :
    (listModify l i f).length = l.length := by
  induction l generalizing i with
  | nil => rfl
  | cons a as ih =>
    match i with
    | 0 => rfl
    | n + 1 => simpa [listModify] using ih n

theorem getElem?_listModify_self (l : List α) (i : Nat) (f : α → α) :
    (listModify l i f)[i]? = (l[i]?).map f := by
  induction l generalizing i with
  | nil => simp [listModify]
  | cons a as ih =>
    match i with
    | 0 => simp [listModify]
    | n + 1 => simpa [listModify] using ih n

theorem getElem?_listModify_ne (l : List α) (i : Nat) (f : α → α) {j : Nat}
    (h : j ≠ i) : (listModify l i f)[j]? = l[j]? := by
  induction l generalizing i j with
  | nil => simp [listModify]
  | cons a as ih =>
    cases i with
    | zero =>
      cases j with
      | zero => omega
      | succ m => simp [listModify]
    | succ n =>
      cases j with
      | zero => simp [listModify]
      | succ m => simpa [listModify] using ih (i := n) (j := m) (by omega)

theorem countP_listModify (p : α → Bool) (l : List α) (i : Nat) (f : α → α)
    {a : α} (ha : l[i]? = some a) (hpa : p a = true) (hpfa : p (f a) = true) :
    (listModify l i f).countP p = l.countP p := by
  induction l generalizing i with
  | nil => simp [listModify]
  | cons b bs ih =>
    match i with
    | 0 =>
      simp only [List.getElem?_cons_zero, Option.some.injEq] at ha
      subst ha
      simp [listModify, List.countP_cons, hpa, hpfa]
    | n + 1 =>
      simp only [List.getElem?_cons_succ] at ha
      simp [listModify, List.countP_cons, ih n ha]

theorem cStrCopy_of_length_le {n : Nat} {s : String} (h : s.length ≤ n) :
    cStrCopy n s = s := by
  obtain ⟨data⟩ := s
  simp only [String.length] at h
  simp [cStrCopy, List.take_of_length_le h]

/-! ### C9 -/

/-- C9: for every bearing value (and any values of the transcendental routines
and configuration), `polar_to_screen` maps a target at distance 0 exactly to
the scope center. -/
theorem c9_zero_distance_projects_to_center
    (cosf sinf : ℚ → ℚ) (pi display_radius radar_radius_nm : ℚ)
    (center_x center_y : ℤ) (bearing_deg : ℚ) :
    polar_to_screen cosf sinf pi display_radius radar_radius_nm
      center_x center_y 0 bearing_deg = (center_x, center_y) := by
  simp [polar_to_screen, cTruncInt]

/-! ### C1 -/

/-- C1 (counterexample): the claim says the hex id is reset at deactivation,
so that no deactivated slot retains the id it used to hold. But after
upserting the aircraft "ABC123" at tick 0 and pruning at tick 70000 (age
70000 ms > 60000 ms), slot 0 is deactivated yet still holds hex "ABC123". -/
theorem c1_counterexample :
    (((aircraft_store_prune 70000
        (aircraft_store_update demoEnv 0 initState [demoReport]).1).1[0]?).map
      (fun sl => (sl.active, sl.hex))) = some (false, "ABC123") := by
  decide

/-- C1 (amended): when `aircraft_store_prune` deactivates a stale target, the
slot's fields — including the hex id — are all left as-is; only the `active`
flag is cleared. Every slot of the pruned table equals the original slot either
unchanged or with just `active` set to `false` (so a deactivated slot does
retain the id of the target it used to hold; aliasing is prevented by the
`active` check in `find_aircraft`, not by resetting the id). -/
theorem c1_prune_clears_only_active_flag (now : Nat)
    (st : List tracked_aircraft_t) :
    ∀ (i : Nat) (sl : tracked_aircraft_t), st[i]? = some sl →
      (aircraft_store_prune now st).1[i]? = some sl ∨
      (aircraft_store_prune now st).1[i]? = some { sl with active := false } := by
  induction st with
  | nil => intro i sl h; simp at h
  | cons a as ih =>
    intro i sl h
    cases i with
    | zero =>
      simp only [List.getElem?_cons_zero, Option.some.injEq] at h
      subst h
      by_cases hs : isStale now a
      · right; simp [aircraft_store_prune, hs]
      · left; simp [aircraft_store_prune, hs]
    | succ n =>
      simp only [List.getElem?_cons_succ] at h
      have := ih n sl h
      by_cases hs : isStale now a
      · simpa [aircraft_store_prune, hs] using this
      · simpa [aircraft_store_prune, hs] using this

/-- C1 (witness): the amended theorem applied to a one-slot table holding a
stale target. -/
theorem c1_witness :
    ([demoSlot][0]? = some demoSlot) ∧
    ((aircraft_store_prune 70000 [demoSlot]).1[0]? = some demoSlot ∨
     (aircraft_store_prune 70000 [demoSlot]).1[0]? =
       some { demoSlot with active := false }) :=
  ⟨rfl, c1_prune_clears_only_active_flag 70000 [demoSlot] 0 demoSlot rfl⟩

/-! ### C6 -/

/-- C6: `prune(now)` (a) returns exactly the number of active targets whose
`uint32` age `now - lastSeen` exceeds the 60-second threshold, (b) leaves the
next snapshot holding exactly the non-stale active targets, unchanged — so
every deactivated target is absent from it — and (c) maps each slot to itself,
deactivated if and only if it was active and stale. -/
theorem c6_prune_deactivates_exactly_stale (now : Nat)
    (st : List tracked_aircraft_t) :
    (aircraft_store_prune now st).2 = st.countP (isStale now) ∧
    aircraft_store_get_all (aircraft_store_prune now st).1 =
      st.filter (fun sl => sl.active && !isStale now sl) ∧
    ∀ (i : Nat) (sl : tracked_aircraft_t), st[i]? = some sl →
      (aircraft_store_prune now st).1[i]? =
        some (if isStale now sl then { sl with active := false } else sl) := by
  induction st with
  | nil => refine ⟨rfl, rfl, ?_⟩; intro i sl h; simp at h
  | cons a as ih =>
    obtain ⟨ih1, ih2, ih3⟩ := ih
    by_cases hs : isStale now a
    · refine ⟨?_, ?_, ?_⟩
      · simp [aircraft_store_prune, hs, List.countP_cons, ih1]
      · have ha : a.active = true := by
          have h2 := hs
          simp only [isStale, Bool.and_eq_true] at h2
          exact h2.1
        simp [aircraft_store_prune, hs, aircraft_store_get_all,
          List.filter_cons, ha] at ih2 ⊢
        exact ih2
      · intro i sl h
        cases i with
        | zero =>
          simp only [List.getElem?_cons_zero, Option.some.injEq] at h
          subst h
          simp [aircraft_store_prune, hs]
        | succ n =>
          simp only [List.getElem?_cons_succ] at h
          simpa [aircraft_store_prune, hs] using ih3 n sl h
    · refine ⟨?_, ?_, ?_⟩
      · simp [aircraft_store_prune, hs, List.countP_cons, ih1]
      · by_cases ha : a.active = true
        · simp [aircraft_store_prune, hs, aircraft_store_get_all,
            List.filter_cons, ha] at ih2 ⊢
          exact ih2
        · simp [aircraft_store_prune, hs, aircraft_store_get_all,
            List.filter_cons, ha] at ih2 ⊢
          exact ih2
      · intro i sl h
        cases i with
        | zero =>
          simp only [List.getElem?_cons_zero, Option.some.injEq] at h
          subst h
          simp [aircraft_store_prune, hs]
        | succ n =>
          simp only [List.getElem?_cons_succ] at h
          simpa [aircraft_store_prune, hs] using ih3 n sl h

/-- C6 (witness): the per-slot characterization applied to a one-slot table
with a stale target. -/
theorem c6_witness :
    (aircraft_store_prune 70000 [demoSlot]).1[0]? =
      some (if isStale 70000 demoSlot then { demoSlot with active := false }
            else demoSlot) :=
  (c6_prune_deactivates_exactly_stale 70000 [demoSlot]).2.2 0 demoSlot rfl

/-! ### C5 -/

/-- C5: upserting a report with a valid position whose id matches an active
target (slot `i` found by `find_aircraft`) updates that slot in place: the
active count and the snapshot length do not grow, the matched slot's
`last_seen_ms` becomes the upsert timestamp, and the slot stays active. -/
theorem c5_upsert_existing_updates_in_place (env : GeoEnv) (now : Nat)
    (st : List tracked_aircraft_t) (a : adsb_aircraft_t) (i : Nat)
    (hpos : a.has_position = true)
    (hfind : find_aircraft st a.hex = some i) :
    aircraft_store_get_count (aircraft_store_update env now st [a]).1 =
      aircraft_store_get_count st ∧
    (aircraft_store_get_all (aircraft_store_update env now st [a]).1).length =
      (aircraft_store_get_all st).length ∧
    ((aircraft_store_update env now st [a]).1[i]?).map (·.last_seen_ms) =
      some now ∧
    ((aircraft_store_update env now st [a]).1[i]?).map (·.active) = some true := by
  obtain ⟨sl, hsl, hp⟩ := scanIdx_eq_some hfind
  have hact : sl.active = true := by
    simp only [Bool.and_eq_true] at hp
    exact hp.1
  have hres : (aircraft_store_update env now st [a]).1 =
      listModify st i (writeSlot env now a) := by
    simp [aircraft_store_update, updateStep, hpos, find_aircraft] at hfind ⊢
    simp [hfind]
  have hcount : (listModify st i (writeSlot env now a)).countP (·.active) =
      st.countP (·.active) :=
    countP_listModify _ st i _ hsl hact (by simp [writeSlot])
  refine ⟨?_, ?_, ?_, ?_⟩
  · simpa [aircraft_store_get_count, hres] using hcount
  · have h1 := List.countP_eq_length_filter (·.active) st
    have h2 := List.countP_eq_length_filter (·.active)
      (listModify st i (writeSlot env now a))
    simp only [aircraft_store_get_all, hres]
    omega
  · rw [hres, getElem?_listModify_self, hsl]
    simp [writeSlot]
  · rw [hres, getElem?_listModify_self, hsl]
    simp [writeSlot]

/-- C5 (witness): upserting "ABC123" into a table already tracking it at
slot 0. -/
theorem c5_witness :
    demoReport.has_position = true ∧
    find_aircraft [demoSlot] demoReport.hex = some 0 ∧
    (aircraft_store_get_count
        (aircraft_store_update demoEnv 5000 [demoSlot] [demoReport]).1 =
      aircraft_store_get_count [demoSlot] ∧
    (aircraft_store_get_all
        (aircraft_store_update demoEnv 5000 [demoSlot] [demoReport]).1).length =
      (aircraft_store_get_all [demoSlot]).length ∧
    ((aircraft_store_update demoEnv 5000 [demoSlot] [demoReport]).1[0]?).map
        (·.last_seen_ms) = some 5000 ∧
    ((aircraft_store_update demoEnv 5000 [demoSlot] [demoReport]).1[0]?).map
        (·.active) = some true) :=
  ⟨rfl, by decide,
    c5_upsert_existing_updates_in_place demoEnv 5000 [demoSlot] demoReport 0
      rfl (by decide)⟩

/-! ### C3 -/

/-- C3 (counterexample): the claim says a target whose distance exceeds the
currently configured (runtime-settable) radar radius is skipped. With the
runtime radius set to 10 NM, a target at distance 30 NM exceeds it, yet the
render update still emits a `create` decision for it: the cull compares
against the compile-time 50 NM constant, not the runtime value. -/
theorem c3_counterexample :
    demoEnv10.radar_radius_nm < (demoTarget "AAA" 30).distance_nm ∧
    (radar_renderer_update_aircraft true initBlips [demoTarget "AAA" 30]).2 =
      [RenderDecision.create "AAA" true true] := by
  constructor
  · decide
  · decide

/-- C3 (amended): the matcher culls against the fixed compile-time constant
`RADAR_RADIUS_NM` (50 NM), independent of the runtime-settable radius: the
render update is exactly the update run on the target list with every target
beyond 50 NM removed, so such targets produce no decision and no slot change
at all. -/
theorem c3_cull_uses_compile_time_radius (show_labels : Bool)
    (st : List aircraft_blip_t) (ts : List tracked_aircraft_t) :
    radar_renderer_update_aircraft show_labels st
        (ts.filter fun t => !decide (RADAR_RADIUS_NM < t.distance_nm)) =
      radar_renderer_update_aircraft show_labels st ts := by
  have key : ∀ (acc : List aircraft_blip_t × List RenderDecision),
      (ts.filter fun t => !decide (RADAR_RADIUS_NM < t.distance_nm)).foldl
        (renderStep show_labels) acc =
      ts.foldl (renderStep show_labels) acc := by
    induction ts with
    | nil => intro acc; rfl
    | cons t rest ih =>
      intro acc
      by_cases hd : RADAR_RADIUS_NM < t.distance_nm
      · have hstep : renderStep show_labels acc t = acc := by
          simp [renderStep, hd]
        simp [List.filter_cons, hd, hstep, ih]
      · simp [List.filter_cons, hd, ih]
  simp [radar_renderer_update_aircraft, key]

/-! ### Renderer fold lemmas shared by C2, C8 and C10 -/

theorem deleteSweep_events_all_delete (st : List aircraft_blip_t) :
    ∀ e ∈ (deleteSweep st).2, ∃ h, e = RenderDecision.delete h := by
  induction st with
  | nil => intro e he; simp [deleteSweep] at he
  | cons a as ih =>
    intro e he
    by_cases hc : a.blip && !a.active
    · simp only [deleteSweep, if_pos hc, List.mem_cons] at he
      rcases he with rfl | he
      · exact ⟨a.hex, rfl⟩
      · exact ih e he
    · simp only [deleteSweep, if_neg hc] at he
      exact ih e he

theorem renderStep_events_mono (show_labels : Bool)
    (acc : List aircraft_blip_t × List RenderDecision)
    (t : tracked_aircraft_t) {e : RenderDecision} (he : e ∈ acc.2) :
    e ∈ (renderStep show_labels acc t).2 := by
  by_cases hd : RADAR_RADIUS_NM < t.distance_nm
  · simpa [renderStep, hd] using he
  · rcases hf : find_blip acc.1 t.hex with - | i
    · rcases hg : findFreeBlip acc.1 with - | j
      · simp [renderStep, hd, hf, hg, he]
      · simp [renderStep, hd, hf, hg, he]
    · simp [renderStep, hd, hf, he]

theorem foldl_renderStep_events_mono (show_labels : Bool)
    (ts : List tracked_aircraft_t) :
    ∀ (acc : List aircraft_blip_t × List RenderDecision) (e : RenderDecision),
      e ∈ acc.2 → e ∈ (ts.foldl (renderStep show_labels) acc).2 := by
  induction ts with
  | nil => intro acc e he; exact he
  | cons t rest ih =>
    intro acc e he
    exact ih _ e (renderStep_events_mono show_labels acc t he)

theorem renderStep_emits_for_in_range (show_labels : Bool)
    (acc : List aircraft_blip_t × List RenderDecision)
    (t : tracked_aircraft_t) (hd : ¬RADAR_RADIUS_NM < t.distance_nm) :
    (∃ cs alt, RenderDecision.create t.hex cs alt ∈ (renderStep show_labels acc t).2) ∨
    (∃ cs alt, RenderDecision.update t.hex cs alt ∈ (renderStep show_labels acc t).2) ∨
    RenderDecision.drop t.hex ∈ (renderStep show_labels acc t).2 := by
  rcases hf : find_blip acc.1 t.hex with - | i
  · rcases hg : findFreeBlip acc.1 with - | j
    · right; right; simp [renderStep, hd, hf, hg]
    · left
      refine ⟨show_labels && !(t.callsign == ""),
        show_labels && decide (0 < t.altitude), ?_⟩
      simp [renderStep, hd, hf, hg]
  · right; left
    refine ⟨show_labels && !(t.callsign == ""),
      show_labels && decide (0 < t.altitude), ?_⟩
    simp [renderStep, hd, hf]

/-! ### C2 -/

/-- C2 (counterexample): the claim says that whenever the input target set is
larger than `maxLabelCount`, every `create`/`update` decision has its labels
suppressed. The code has no such density culling: with the show-labels flag on
(its default), a set of 2 targets — larger than a configured `maxLabelCount`
of 1 — still yields `create` decisions with both labels shown. -/
theorem c2_counterexample :
    (1 : Nat) < ([demoTarget "AAA" 1, demoTarget "BBB" 2] :
        List tracked_aircraft_t).length ∧
    (radar_renderer_update_aircraft true initBlips
        [demoTarget "AAA" 1, demoTarget "BBB" 2]).2 =
      [RenderDecision.create "AAA" true true,
       RenderDecision.create "BBB" true true] := by
  constructor
  · decide
  · decide

/-- C2 (amended): there is no `maxLabelCount` density culling. Label
suppression is governed solely by the configured show-labels flag: when it is
off, every `create`/`update` decision has both labels suppressed, whatever the
target count; and blips are emitted regardless of the flag — every in-range
target of the cycle produces a `create`, an `update`, or the capacity `drop`
signal. -/
theorem c2_labels_governed_by_flag_not_count
    (st : List aircraft_blip_t) (ts : List tracked_aircraft_t) :
    (∀ e ∈ (radar_renderer_update_aircraft false st ts).2,
      ∀ (h : String) (cs alt : Bool),
        (e = RenderDecision.create h cs alt ∨
         e = RenderDecision.update h cs alt) → cs = false ∧ alt = false) ∧
    (∀ (show_labels : Bool), ∀ t ∈ ts, ¬RADAR_RADIUS_NM < t.distance_nm →
      (∃ cs alt, RenderDecision.create t.hex cs alt ∈
        (radar_renderer_update_aircraft show_labels st ts).2) ∨
      (∃ cs alt, RenderDecision.update t.hex cs alt ∈
        (radar_renderer_update_aircraft show_labels st ts).2) ∨
      RenderDecision.drop t.hex ∈
        (radar_renderer_update_aircraft show_labels st ts).2) := by
  constructor
  · have key : ∀ (ts' : List tracked_aircraft_t)
        (acc : List aircraft_blip_t × List RenderDecision),
        (∀ e ∈ acc.2, ∀ (h : String) (cs alt : Bool),
          (e = RenderDecision.create h cs alt ∨
           e = RenderDecision.update h cs alt) → cs = false ∧ alt = false) →
        ∀ e ∈ (ts'.foldl (renderStep false) acc).2,
          ∀ (h : String) (cs alt : Bool),
            (e = RenderDecision.create h cs alt ∨
             e = RenderDecision.update h cs alt) → cs = false ∧ alt = false := by
      intro ts'
      induction ts' with
      | nil => intro acc hacc; exact hacc
      | cons t rest ih =>
        intro acc hacc
        refine ih _ ?_
        intro e he h cs alt hshape
        by_cases hd : RADAR_RADIUS_NM < t.distance_nm
        · rw [renderStep, if_pos hd] at he
          exact hacc e he h cs alt hshape
        · rcases hf : find_blip acc.1 t.hex with - | i
          · rcases hg : findFreeBlip acc.1 with - | j
            · simp only [renderStep, if_neg hd, hf, hg, List.mem_append,
                List.mem_singleton] at he
              rcases he with he | rfl
              · exact hacc e he h cs alt hshape
              · rcases hshape with hc | hc <;> simp at hc
            · simp only [renderStep, if_neg hd, hf, hg, List.mem_append,
                List.mem_singleton] at he
              rcases he with he | rfl
              · exact hacc e he h cs alt hshape
              · rcases hshape with hc | hc
                · injection hc with h1 h2 h3
                  simp only [Bool.false_and] at h2 h3
                  exact ⟨h2.symm, h3.symm⟩
                · exact RenderDecision.noConfusion hc
          · simp only [renderStep, if_neg hd, hf, List.mem_append,
              List.mem_singleton] at he
            rcases he with he | rfl
            · exact hacc e he h cs alt hshape
            · rcases hshape with hc | hc
              · exact RenderDecision.noConfusion hc
              · injection hc with h1 h2 h3
                simp only [Bool.false_and] at h2 h3
                exact ⟨h2.symm, h3.symm⟩
    intro e he h cs alt hshape
    simp only [radar_renderer_update_aircraft, List.mem_append] at he
    rcases he with he | he
    · exact key ts (markInactive st, []) (by simp) e he h cs alt hshape
    · obtain ⟨h', rfl⟩ := deleteSweep_events_all_delete _ e he
      rcases hshape with hc | hc <;> simp at hc
  · intro show_labels t ht hd
    have key : ∀ (rest : List tracked_aircraft_t)
        (acc : List aircraft_blip_t × List RenderDecision), t ∈ rest →
        (∃ cs alt, RenderDecision.create t.hex cs alt ∈
          (rest.foldl (renderStep show_labels) acc).2) ∨
        (∃ cs alt, RenderDecision.update t.hex cs alt ∈
          (rest.foldl (renderStep show_labels) acc).2) ∨
        RenderDecision.drop t.hex ∈
          (rest.foldl (renderStep show_labels) acc).2 := by
      intro rest
      induction rest with
      | nil => intro acc h; simp at h
      | cons u us ih =>
        intro acc hmem
        rcases List.mem_cons.mp hmem with rfl | hmem
        · rcases renderStep_emits_for_in_range show_labels acc t hd with
            ⟨cs, alt, hin⟩ | ⟨cs, alt, hin⟩ | hin
          · exact Or.inl ⟨cs, alt, foldl_renderStep_events_mono _ us _ _ hin⟩
          · exact Or.inr (Or.inl ⟨cs, alt,
              foldl_renderStep_events_mono _ us _ _ hin⟩)
          · exact Or.inr (Or.inr (foldl_renderStep_events_mono _ us _ _ hin))
        · exact ih _ hmem
    rcases key ts (markInactive st, []) ht with ⟨cs, alt, hin⟩ |
      ⟨cs, alt, hin⟩ | hin
    · exact Or.inl ⟨cs, alt, by
        simp only [radar_renderer_update_aircraft, List.mem_append]
        exact Or.inl hin⟩
    · exact Or.inr (Or.inl ⟨cs, alt, by
        simp only [radar_renderer_update_aircraft, List.mem_append]
        exact Or.inl hin⟩)
    · exact Or.inr (Or.inr (by
        simp only [radar_renderer_update_aircraft, List.mem_append]
        exact Or.inl hin))

/-- C2 (witness): the amended theorem applied to a 2-target in-range set from
the initialized pool; the suppression half instantiated at the first emitted
decision and the emission half at the first target. -/
theorem c2_witness :
    (RenderDecision.create "AAA" false false ∈
        (radar_renderer_update_aircraft false initBlips
          [demoTarget "AAA" 1, demoTarget "BBB" 2]).2 →
      ∀ (h : String) (cs alt : Bool),
        (RenderDecision.create "AAA" false false = RenderDecision.create h cs alt ∨
         RenderDecision.create "AAA" false false = RenderDecision.update h cs alt) →
        cs = false ∧ alt = false) ∧
    ((∃ cs alt, RenderDecision.create "AAA" cs alt ∈
        (radar_renderer_update_aircraft true initBlips
          [demoTarget "AAA" 1, demoTarget "BBB" 2]).2) ∨
     (∃ cs alt, RenderDecision.update "AAA" cs alt ∈
        (radar_renderer_update_aircraft true initBlips
          [demoTarget "AAA" 1, demoTarget "BBB" 2]).2) ∨
     RenderDecision.drop "AAA" ∈
        (radar_renderer_update_aircraft true initBlips
          [demoTarget "AAA" 1, demoTarget "BBB" 2]).2) :=
  ⟨fun hmem =>
    (c2_labels_governed_by_flag_not_count initBlips
      [demoTarget "AAA" 1, demoTarget "BBB" 2]).1 _ hmem,
   (c2_labels_governed_by_flag_not_count initBlips
      [demoTarget "AAA" 1, demoTarget "BBB" 2]).2 true (demoTarget "AAA" 1)
      (by decide) (by decide)⟩

/-! ### C10 -/

/-- C10: `delete_blip` destroys all four visual objects of the slot, zeroes
the stored hex id and clears the touched flag; the sweep applies exactly this
teardown (emitting a `delete` decision) to every untouched slot holding
objects; and `find_blip` can never answer with a slot whose blip object is
freed, so a freed slot is unmatchable by id lookup until a fresh create
claims it. -/
theorem c10_delete_frees_slot_and_blocks_lookup :
    (∀ sl : aircraft_blip_t,
      (delete_blip sl).blip = false ∧ (delete_blip sl).label_cs = false ∧
      (delete_blip sl).label_alt = false ∧
      (delete_blip sl).velocity_line = false ∧
      (delete_blip sl).hex = "" ∧ (delete_blip sl).active = false) ∧
    (∀ (st : List aircraft_blip_t) (i : Nat) (sl : aircraft_blip_t),
      st[i]? = some sl → sl.blip = true → sl.active = false →
      (deleteSweep st).1[i]? = some (delete_blip sl) ∧
      RenderDecision.delete sl.hex ∈ (deleteSweep st).2) ∧
    (∀ (st : List aircraft_blip_t) (i : Nat) (sl : aircraft_blip_t)
      (hx : String), st[i]? = some sl → sl.blip = false →
      find_blip st hx ≠ some i) := by
  refine ⟨fun sl => by simp [delete_blip], ?_, ?_⟩
  · intro st
    induction st with
    | nil => intro i sl h; simp at h
    | cons a as ih =>
      intro i sl h hblip hact
      cases i with
      | zero =>
        simp only [List.getElem?_cons_zero, Option.some.injEq] at h
        subst h
        have hc : (a.blip && !a.active) = true := by simp [hblip, hact]
        constructor
        · simp [deleteSweep, hc]
        · simp [deleteSweep, hc]
      | succ n =>
        simp only [List.getElem?_cons_succ] at h
        obtain ⟨h1, h2⟩ := ih n sl h hblip hact
        by_cases hc : a.blip && !a.active
        · exact ⟨by simpa [deleteSweep, hc] using h1,
            by simp [deleteSweep, hc, h2]⟩
        · exact ⟨by simpa [deleteSweep, hc] using h1,
            by simp [deleteSweep, hc, h2]⟩
  · intro st i sl hx hst hblip hcontra
    obtain ⟨b, hb, hpb⟩ := scanIdx_eq_some hcontra
    rw [hst] at hb
    obtain rfl : sl = b := by injection hb
    simp only [Bool.and_eq_true] at hpb
    rw [hpb.1] at hblip
    exact Bool.true_eq_false.mp hblip

/-! ### C4 -/

theorem scanIdx_append_of_forall_false {p : α → Bool} {l : List α}
    (l' : List α) (h : ∀ x ∈ l, p x = false) :
    scanIdx p (l ++ l') = (scanIdx p l').map (· + l.length) := by
  induction l with
  | nil => simp
  | cons a as ih =>
    have ha : p a = false := h a (by simp)
    have hrest : ∀ x ∈ as, p x = false := fun x hx => h x (by simp [hx])
    have h1 : scanIdx p (a :: (as ++ l')) =
        (scanIdx p (as ++ l')).map (· + 1) := by
      simp [scanIdx, ha]
    rw [List.cons_append, h1, ih hrest]
    rcases hk : scanIdx p l' with - | k
    · simp
    · simp only [hk, Option.map_some', List.length_cons]
      rw [Nat.add_assoc]

theorem writeSlot_active (env : GeoEnv) (now : Nat) (a : adsb_aircraft_t)
    (sl : tracked_aircraft_t) : (writeSlot env now a sl).active = true := by
  simp [writeSlot]

theorem writeSlot_hex (env : GeoEnv) (now : Nat) (a : adsb_aircraft_t)
    (sl : tracked_aircraft_t) : (writeSlot env now a sl).hex = cStrCopy 7 a.hex := by
  simp [writeSlot]

theorem find_aircraft_prefixState_none (env : GeoEnv) (now : Nat)
    {p : List adsb_aircraft_t} {a : adsb_aircraft_t}
    (hhex : ∀ ap ∈ p, ap.hex.length ≤ 7)
    (hnot : a.hex ∉ p.map (·.hex)) :
    find_aircraft (prefixState env now p) a.hex = none := by
  rw [find_aircraft, scanIdx_eq_none_iff]
  intro sl hsl
  rw [prefixState, List.mem_append] at hsl
  rcases hsl with hsl | hsl
  · obtain ⟨ap, hap, rfl⟩ := List.mem_map.mp hsl
    have hne : ap.hex ≠ a.hex := by
      intro hcontra
      exact hnot (List.mem_map.mpr ⟨ap, hap, hcontra⟩)
    rw [writeSlot_hex, cStrCopy_of_length_le (hhex ap hap)]
    simp [hne]
  · have : sl = emptySlot := List.eq_of_mem_replicate hsl
    subst this
    simp [emptySlot]

theorem findFreeSlot_prefixState_lt (env : GeoEnv) (now : Nat)
    {p : List adsb_aircraft_t} (hlt : p.length < MAX_AIRCRAFT) :
    findFreeSlot (prefixState env now p) = some p.length := by
  rw [findFreeSlot, prefixState]
  rw [scanIdx_append_of_forall_false]
  · obtain ⟨k, hk⟩ : ∃ k, MAX_AIRCRAFT - p.length = k + 1 :=
      ⟨MAX_AIRCRAFT - p.length - 1, by omega⟩
    rw [hk, List.replicate_succ]
    simp [scanIdx, emptySlot]
  · intro x hx
    obtain ⟨ap, -, rfl⟩ := List.mem_map.mp hx
    simp [writeSlot_active]

theorem findFreeSlot_prefixState_full (env : GeoEnv) (now : Nat)
    {p : List adsb_aircraft_t} (hfull : p.length = MAX_AIRCRAFT) :
    findFreeSlot (prefixState env now p) = none := by
  rw [findFreeSlot, prefixState, hfull, Nat.sub_self, List.replicate_zero]
  rw [scanIdx_append_of_forall_false]
  · simp [scanIdx]
  · intro x hx
    obtain ⟨ap, -, rfl⟩ := List.mem_map.mp hx
    simp [writeSlot_active]

theorem listModify_append_length (l l' : List α) (f : α → α) :
    listModify (l ++ l') l.length f = l ++ listModify l' 0 f := by
  induction l with
  | nil => rfl
  | cons a as ih => simpa [listModify] using ih

theorem prefixState_snoc (env : GeoEnv) (now : Nat)
    {p : List adsb_aircraft_t} (a : adsb_aircraft_t)
    (hlt : p.length < MAX_AIRCRAFT) :
    listModify (prefixState env now p) p.length (writeSlot env now a) =
      prefixState env now (p ++ [a]) := by
  obtain ⟨k, hk⟩ : ∃ k, MAX_AIRCRAFT - p.length = k + 1 :=
    ⟨MAX_AIRCRAFT - p.length - 1, by omega⟩
  have hk2 : MAX_AIRCRAFT - (p ++ [a]).length = k := by
    simp only [List.length_append, List.length_cons, List.length_nil]
    omega
  have hlen : p.length = (p.map (fun x => writeSlot env now x emptySlot)).length := by
    simp
  rw [prefixState, hk, List.replicate_succ, hlen, listModify_append_length]
  rw [prefixState, hk2]
  simp [listModify, List.append_assoc]

theorem prefixState_count (env : GeoEnv) (now : Nat)
    (p : List adsb_aircraft_t) :
    aircraft_store_get_count (prefixState env now p) = p.length := by
  rw [aircraft_store_get_count, prefixState, List.countP_append]
  have h1 : (p.map (fun a => writeSlot env now a emptySlot)).countP (·.active) =
      p.length := by
    rw [List.countP_map]
    apply List.countP_eq_length.mpr
    intro x hx
    simp only [Function.comp_apply]
    exact writeSlot_active env now x emptySlot
  have h2 : (List.replicate (MAX_AIRCRAFT - p.length) emptySlot).countP
      (·.active) = 0 := by
    rw [List.countP_eq_zero]
    intro x hx
    have : x = emptySlot := List.eq_of_mem_replicate hx
    subst this
    simp [emptySlot]
  omega

theorem store_fill_aux (env : GeoEnv) (now : Nat) :
    ∀ (batch p : List adsb_aircraft_t) (d : Nat),
    (∀ a ∈ p ++ batch, a.has_position = true) →
    (∀ a ∈ p ++ batch, a.hex.length ≤ 7) →
    ((p ++ batch).map (·.hex)).Nodup →
    p.length ≤ MAX_AIRCRAFT →
    batch.foldl (updateStep env now) (prefixState env now p, d) =
      (prefixState env now ((p ++ batch).take MAX_AIRCRAFT),
       d + (p.length + batch.length - MAX_AIRCRAFT)) := by
  intro batch
  induction batch with
  | nil =>
    intro p d hpos hhex hnodup hple
    simp only [List.foldl_nil, List.append_nil]
    rw [List.take_of_length_le hple]
    congr 1
    simp only [List.length_nil]
    omega
  | cons a rest ih =>
    intro p d hpos hhex hnodup hple
    have hpos_a : a.has_position = true := hpos a (by simp)
    have hhex_p : ∀ ap ∈ p, ap.hex.length ≤ 7 := fun ap hap =>
      hhex ap (by simp [hap])
    have hnot : a.hex ∉ p.map (·.hex) := by
      intro hmem
      rw [List.map_append] at hnodup
      have := (List.nodup_append.mp hnodup).2.2
      exact this hmem (by simp)
    have hfind : find_aircraft (prefixState env now p) a.hex = none :=
      find_aircraft_prefixState_none env now hhex_p hnot
    by_cases hlt : p.length < MAX_AIRCRAFT
    · have hfree := findFreeSlot_prefixState_lt env now (p := p) hlt
      have hstep : updateStep env now (prefixState env now p, d) a =
          (prefixState env now (p ++ [a]), d) := by
        rw [updateStep]
        simp only [hpos_a, Bool.true_eq_false, if_false, hfind, hfree]
        rw [prefixState_snoc env now a hlt]
      rw [List.foldl_cons, hstep]
      have := ih (p ++ [a]) d
        (by intro x hx; apply hpos; simpa [List.append_assoc] using hx)
        (by intro x hx; apply hhex; simpa [List.append_assoc] using hx)
        (by simpa [List.append_assoc] using hnodup)
        (by simp; omega)
      rw [this]
      congr 2
      · simp [List.append_assoc]
      · simp
        omega
    · have hfull : p.length = MAX_AIRCRAFT := by omega
      have hfree := findFreeSlot_prefixState_full env now (p := p) hfull
      have hstep : updateStep env now (prefixState env now p, d) a =
          (prefixState env now p, d + 1) := by
        rw [updateStep]
        simp only [hpos_a, Bool.true_eq_false, if_false, hfind, hfree]
      rw [List.foldl_cons, hstep]
      have hnodup' : ((p ++ rest).map (·.hex)).Nodup := by
        have hsub : (p ++ rest).Sublist (p ++ a :: rest) :=
          (List.sublist_cons_self a rest).append_left p
        exact (hnodup.sublist (hsub.map (·.hex)))
      have := ih p (d + 1)
        (by intro x hx; apply hpos
            rcases List.mem_append.mp hx with hx | hx
            · simp [hx]
            · simp [hx])
        (by intro x hx; apply hhex
            rcases List.mem_append.mp hx with hx | hx
            · simp [hx]
            · simp [hx])
        hnodup' (by omega)
      rw [this]
      have htake : (p ++ a :: rest).take MAX_AIRCRAFT =
          (p ++ rest).take MAX_AIRCRAFT := by
        rw [List.take_append_eq_append_take, List.take_append_eq_append_take]
        rw [List.take_of_length_le (by omega), hfull, Nat.sub_self]
        simp
      rw [htake]
      congr 1
      simp only [List.length_cons]
      omega

/-- C4: upserting a batch of `MAX_AIRCRAFT + 1` reports with pairwise-distinct
fresh ids, each with a valid position, into the freshly initialized store
drops exactly one report with the capacity-exceeded warning and leaves the
table with exactly `MAX_AIRCRAFT` active targets. -/
theorem c4_capacity_overflow_drops_exactly_one (env : GeoEnv) (now : Nat)
    (batch : List adsb_aircraft_t)
    (hlen : batch.length = MAX_AIRCRAFT + 1)
    (hpos : ∀ a ∈ batch, a.has_position = true)
    (hhex : ∀ a ∈ batch, a.hex.length ≤ 7)
    (hnodup : (batch.map (·.hex)).Nodup) :
    (aircraft_store_update env now initState batch).2 = 1 ∧
    aircraft_store_get_count (aircraft_store_update env now initState batch).1 =
      MAX_AIRCRAFT := by
  have hinit : initState = prefixState env now [] := by
    simp [initState, prefixState]
  have := store_fill_aux env now batch [] 0
    (by simpa using hpos) (by simpa using hhex) (by simpa using hnodup)
    (by simp)
  rw [aircraft_store_update, hinit, this]
  constructor
  · simp [hlen, MAX_AIRCRAFT]
  · rw [prefixState_count]
    simp [List.length_take, hlen]

/-- C4 (witness): the theorem applied to a concrete batch of 65 distinct
reports. -/
theorem c4_witness :
    capacityBatch.length = MAX_AIRCRAFT + 1 ∧
    ((aircraft_store_update demoEnv 0 initState capacityBatch).2 = 1 ∧
     aircraft_store_get_count
       (aircraft_store_update demoEnv 0 initState capacityBatch).1 =
       MAX_AIRCRAFT) :=
  ⟨by decide,
   c4_capacity_overflow_drops_exactly_one demoEnv 0 capacityBatch (by decide)
     (by decide) (by decide) (by decide)⟩

/-- C10 (witness): the sweep half applied to a one-slot pool holding an
untouched blip "AA", and the lookup half applied to the freed slot. -/
theorem c10_witness :
    ((deleteSweep [staleBlip]).1[0]? = some (delete_blip staleBlip) ∧
      RenderDecision.delete staleBlip.hex ∈ (deleteSweep [staleBlip]).2) ∧
    find_blip [delete_blip staleBlip] "AA" ≠ some 0 :=
  ⟨c10_delete_frees_slot_and_blocks_lookup.2.1 [staleBlip] 0 staleBlip rfl
      rfl rfl,
   c10_delete_frees_slot_and_blocks_lookup.2.2 [delete_blip staleBlip] 0
      (delete_blip staleBlip) "AA" rfl rfl⟩

/-! ### C7 -/

theorem mem_of_getElem?_some {l : List α} {i : Nat} {a : α}
    (h : l[i]? = some a) : a ∈ l := by
  obtain ⟨hi, rfl⟩ := List.getElem?_eq_some.mp h
  exact List.getElem_mem hi

theorem prune_getElem? (now : Nat) (st : List tracked_aircraft_t) (i : Nat) :
    (aircraft_store_prune now st).1[i]? =
      (st[i]?).map
        (fun sl => if isStale now sl then { sl with active := false } else sl) := by
  induction st generalizing i with
  | nil => simp [aircraft_store_prune]
  | cons a as ih =>
    cases i with
    | zero =>
      by_cases hs : isStale now a
      · simp [aircraft_store_prune, hs]
      · simp [aircraft_store_prune, hs]
    | succ n =>
      by_cases hs : isStale now a
      · simpa [aircraft_store_prune, hs] using ih n
      · simpa [aircraft_store_prune, hs] using ih n

theorem find_aircraft_some (st : List tracked_aircraft_t) (hx : String)
    {i : Nat} (hf : find_aircraft st hx = some i) :
    ∃ sl, st[i]? = some sl ∧ sl.active = true ∧ sl.hex = hx := by
  obtain ⟨sl, hsl, hp⟩ := scanIdx_eq_some hf
  rw [Bool.and_eq_true] at hp
  exact ⟨sl, hsl, hp.1, eq_of_beq hp.2⟩

theorem find_aircraft_none (st : List tracked_aircraft_t) (hx : String)
    (hf : find_aircraft st hx = none) :
    ∀ sl ∈ st, sl.active = true → sl.hex ≠ hx := by
  intro sl hsl hact hcontra
  have := (scanIdx_eq_none_iff.mp hf) sl hsl
  rw [hact, hcontra] at this
  simp at this

theorem uniqueActiveIds_listModify_write (env : GeoEnv) (now : Nat)
    (a : adsb_aircraft_t) (st : List tracked_aircraft_t) (i : Nat)
    (h : uniqueActiveIds st) (hlen : a.hex.length ≤ 7)
    (hothers : ∀ (k : Nat) (slk : tracked_aircraft_t), k ≠ i →
      st[k]? = some slk → slk.active = true → slk.hex ≠ a.hex) :
    uniqueActiveIds (listModify st i (writeSlot env now a)) := by
  intro i' j' sli slj hne hi hj hacti hactj
  by_cases hii : i' = i
  · subst hii
    rw [getElem?_listModify_self] at hi
    rcases ho : st[i']? with - | old
    · rw [ho] at hi; simp at hi
    · rw [ho, Option.map_some'] at hi
      have hw : writeSlot env now a old = sli := by injection hi
      have hhex : sli.hex = a.hex := by
        rw [← hw, writeSlot_hex, cStrCopy_of_length_le hlen]
      have hjne : j' ≠ i' := fun hc => hne hc.symm
      rw [getElem?_listModify_ne _ _ _ hjne] at hj
      intro hcontra
      exact hothers j' slj hjne hj hactj (by rw [← hcontra, hhex])
  · by_cases hjj : j' = i
    · subst hjj
      rw [getElem?_listModify_self] at hj
      rcases ho : st[j']? with - | old
      · rw [ho] at hj; simp at hj
      · rw [ho, Option.map_some'] at hj
        have hw : writeSlot env now a old = slj := by injection hj
        have hhex : slj.hex = a.hex := by
          rw [← hw, writeSlot_hex, cStrCopy_of_length_le hlen]
        rw [getElem?_listModify_ne _ _ _ hii] at hi
        intro hcontra
        exact hothers i' sli hii hi hacti (by rw [hcontra, hhex])
    · rw [getElem?_listModify_ne _ _ _ hii] at hi
      rw [getElem?_listModify_ne _ _ _ hjj] at hj
      exact h i' j' sli slj hne hi hj hacti hactj

theorem updateStep_preserves_unique (env : GeoEnv) (now : Nat)
    (acc : List tracked_aircraft_t × Nat) (a : adsb_aircraft_t)
    (hlen : a.hex.length ≤ 7) (h : uniqueActiveIds acc.1) :
    uniqueActiveIds (updateStep env now acc a).1 := by
  rw [updateStep]
  by_cases hpos : a.has_position = false
  · simpa [hpos] using h
  · rcases hf : find_aircraft acc.1 a.hex with - | i
    · rcases hg : findFreeSlot acc.1 with - | j
      · simpa [hpos, hf, hg] using h
      · simp only [hpos, if_false, hf, hg]
        obtain ⟨slj, hslj, hfree⟩ := scanIdx_eq_some hg
        refine uniqueActiveIds_listModify_write env now a acc.1 j h hlen ?_
        intro k slk hk hgot hact
        exact find_aircraft_none acc.1 a.hex hf slk (mem_of_getElem?_some hgot)
          hact
    · simp only [hpos, if_false, hf]
      obtain ⟨sli, hsli, hact, hhex⟩ := find_aircraft_some acc.1 a.hex hf
      refine uniqueActiveIds_listModify_write env now a acc.1 i h hlen ?_
      intro k slk hk hgot hactk
      have := h k i slk sli hk hgot hsli hactk hact
      rw [hhex] at this
      exact this

theorem update_preserves_unique (env : GeoEnv) (now : Nat)
    (batch : List adsb_aircraft_t) :
    ∀ (acc : List tracked_aircraft_t × Nat),
      (∀ a ∈ batch, a.hex.length ≤ 7) → uniqueActiveIds acc.1 →
      uniqueActiveIds (batch.foldl (updateStep env now) acc).1 := by
  induction batch with
  | nil => intro acc _ h; exact h
  | cons a rest ih =>
    intro acc hlen h
    rw [List.foldl_cons]
    exact ih _ (fun x hx => hlen x (by simp [hx]))
      (updateStep_preserves_unique env now acc a (hlen a (by simp)) h)

theorem prune_preserves_unique (now : Nat) (st : List tracked_aircraft_t)
    (h : uniqueActiveIds st) :
    uniqueActiveIds (aircraft_store_prune now st).1 := by
  intro i j sli slj hne hi hj hacti hactj
  rw [prune_getElem?] at hi hj
  rcases hoi : st[i]? with - | oldi
  · rw [hoi] at hi; simp at hi
  · rw [hoi, Option.map_some'] at hi
    rcases hoj : st[j]? with - | oldj
    · rw [hoj] at hj; simp at hj
    · rw [hoj, Option.map_some'] at hj
      have hi' : (if isStale now oldi then { oldi with active := false }
          else oldi) = sli := by injection hi
      have hj' : (if isStale now oldj then { oldj with active := false }
          else oldj) = slj := by injection hj
      by_cases hsi : isStale now oldi
      · rw [if_pos hsi] at hi'
        rw [← hi'] at hacti
        simp at hacti
      · rw [if_neg hsi] at hi'
        by_cases hsj : isStale now oldj
        · rw [if_pos hsj] at hj'
          rw [← hj'] at hactj
          simp at hactj
        · rw [if_neg hsj] at hj'
          subst hi'
          subst hj'
          exact h i j oldi oldj hne hoi hoj hacti hactj

theorem uniqueActiveIds_initState : uniqueActiveIds initState := by
  intro i j sli slj hne hi hj hacti hactj
  have : sli = emptySlot :=
    List.eq_of_mem_replicate (mem_of_getElem?_some hi)
  rw [this] at hacti
  simp [emptySlot] at hacti

/-- C7: starting from the initialized store, after any sequence of upsert and
prune operations (with every report's hex fitting its `char[8]` field), the
hex id is unique among active slots: no two active slots hold the same id. -/
theorem c7_active_ids_unique_reachable (env : GeoEnv) (ops : List StoreOp)
    (hwf : ∀ op ∈ ops, opWF op) : uniqueActiveIds (runOps env ops) := by
  rw [runOps]
  have key : ∀ (l : List StoreOp) (st : List tracked_aircraft_t),
      (∀ op ∈ l, opWF op) → uniqueActiveIds st →
      uniqueActiveIds (l.foldl (runOp env) st) := by
    intro l
    induction l with
    | nil => intro st _ h; exact h
    | cons op rest ih =>
      intro st hwf' h
      rw [List.foldl_cons]
      refine ih _ (fun x hx => hwf' x (by simp [hx])) ?_
      cases op with
      | upsert now batch =>
        exact update_preserves_unique env now batch (st, 0)
          (hwf' (StoreOp.upsert now batch) (by simp)) h
      | prune now => exact prune_preserves_unique now st h
  exact key ops initState hwf uniqueActiveIds_initState

/-- C7 (witness): the invariant holds after the concrete sequence
insert / prune / re-insert (with a duplicated report in the last batch). -/
theorem c7_witness :
    (∀ op ∈ demoOps, opWF op) ∧ uniqueActiveIds (runOps demoEnv demoOps) := by
  have hwf : ∀ op ∈ demoOps, opWF op := by
    intro op hop
    simp only [demoOps, List.mem_cons, List.not_mem_nil, or_false] at hop
    rcases hop with rfl | rfl | rfl
    · show ∀ a ∈ [demoReport], a.hex.length ≤ 7
      decide
    · show True
      trivial
    · show ∀ a ∈ [demoReport, demoReport], a.hex.length ≤ 7
      decide
  exact ⟨hwf, c7_active_ids_unique_reachable demoEnv demoOps hwf⟩

/-! ### C8 -/

theorem scanIdx_eq_some_of {p : α → Bool} {l : List α} {i : Nat} {b : α}
    (hb : l[i]? = some b) (hpb : p b = true)
    (hfirst : ∀ k, k < i → ∀ c, l[k]? = some c → p c = false) :
    scanIdx p l = some i := by
  induction l generalizing i with
  | nil => simp at hb
  | cons a as ih =>
    cases i with
    | zero =>
      simp only [List.getElem?_cons_zero, Option.some.injEq] at hb
      subst hb
      simp [scanIdx, hpb]
    | succ n =>
      simp only [List.getElem?_cons_succ] at hb
      have ha : p a = false := hfirst 0 (by omega) a (by simp)
      have : scanIdx p as = some n :=
        ih hb (fun k hk c hc => hfirst (k + 1) (by omega) c (by simpa using hc))
      simp [scanIdx, ha, this]

theorem scanIdx_isSome_of_exists {p : α → Bool} {l : List α} {i : Nat} {b : α}
    (hb : l[i]? = some b) (hpb : p b = true) : (scanIdx p l).isSome = true := by
  rcases hs : scanIdx p l with - | k
  · have := scanIdx_eq_none_iff.mp hs b (mem_of_getElem?_some hb)
    rw [this] at hpb
    exact absurd hpb (by simp)
  · rfl

theorem scanIdx_congr_pointwise {p : α → Bool} {l l' : List α}
    (h : ∀ k : Nat, (l[k]?).map p = (l'[k]?).map p) :
    scanIdx p l = scanIdx p l' := by
  induction l generalizing l' with
  | nil =>
    cases l' with
    | nil => rfl
    | cons b bs => have := h 0; simp at this
  | cons a as ih =>
    cases l' with
    | nil => have := h 0; simp at this
    | cons b bs =>
      have h0 : p a = p b := by have := h 0; simpa using this
      have hrest : scanIdx p as = scanIdx p bs :=
        ih (fun k => by have := h (k + 1); simpa using this)
      simp [scanIdx, h0, hrest]

theorem find_blip_congr {σ σ' : List aircraft_blip_t} (h : sameBlips σ σ')
    (hx : String) : find_blip σ hx = find_blip σ' hx := by
  apply scanIdx_congr_pointwise
  intro k
  have hk := h k
  rcases h1 : σ[k]? with - | sl
  · rw [h1] at hk
    rcases h2 : σ'[k]? with - | sl'
    · simp
    · rw [h2] at hk; simp at hk
  · rw [h1] at hk
    rcases h2 : σ'[k]? with - | sl'
    · rw [h2] at hk; simp at hk
    · rw [h2] at hk
      simp only [Option.map_some', Option.some.injEq, blipHex,
        Prod.mk.injEq] at hk
      simp [h2, hk.1, hk.2]

theorem markInactive_getElem? (σ : List aircraft_blip_t) (i : Nat) :
    (markInactive σ)[i]? = (σ[i]?).map (fun sl => { sl with active := false }) := by
  simp [markInactive]

theorem deleteSweep_getElem? (σ : List aircraft_blip_t) (i : Nat) :
    (deleteSweep σ).1[i]? =
      (σ[i]?).map (fun sl => if sl.blip && !sl.active then delete_blip sl else sl) := by
  induction σ generalizing i with
  | nil => simp [deleteSweep]
  | cons a as ih =>
    cases i with
    | zero =>
      by_cases hc : a.blip && !a.active
      · have hcond : a.blip = true ∧ a.active = false := by simpa using hc
        simp [deleteSweep, hc, hcond.1, hcond.2]
      · have hcond : ¬(a.blip = true ∧ a.active = false) := by
          rintro ⟨h1, h2⟩
          exact hc (by simp [h1, h2])
        simp [deleteSweep, hc, hcond]
    | succ n =>
      by_cases hc : a.blip && !a.active
      · simpa [deleteSweep, hc] using ih n
      · simpa [deleteSweep, hc] using ih n

theorem deleteSweep_of_all_active (σ : List aircraft_blip_t)
    (h : ∀ sl ∈ σ, sl.blip = true → sl.active = true) :
    deleteSweep σ = (σ, []) := by
  induction σ with
  | nil => rfl
  | cons a as ih =>
    have hc : (a.blip && !a.active) = false := by
      by_cases hb : a.blip = true
      · simp [hb, h a (by simp) hb]
      · simp [Bool.not_eq_true] at hb
        simp [hb]
    rw [deleteSweep, ih (fun sl hsl => h sl (by simp [hsl]))]
    simp [hc]

theorem updateSlotCommon_blip (show_labels : Bool) (t : tracked_aircraft_t)
    (sl : aircraft_blip_t) :
    (updateSlotCommon show_labels t sl).blip = sl.blip := rfl

theorem updateSlotCommon_hex (show_labels : Bool) (t : tracked_aircraft_t)
    (sl : aircraft_blip_t) :
    (updateSlotCommon show_labels t sl).hex = sl.hex := rfl

theorem updateSlotCommon_active (show_labels : Bool) (t : tracked_aircraft_t)
    (sl : aircraft_blip_t) :
    (updateSlotCommon show_labels t sl).active = true := rfl

/-- Blip-slot persistence: one loop iteration never destroys a live blip,
never changes its hex, and never clears its touched flag. -/
theorem renderStep_preserves_blip (show_labels : Bool)
    (acc : List aircraft_blip_t × List RenderDecision)
    (t : tracked_aircraft_t) {i : Nat} {sl : aircraft_blip_t}
    (hsl : acc.1[i]? = some sl) (hblip : sl.blip = true) :
    ∃ sl', (renderStep show_labels acc t).1[i]? = some sl' ∧
      sl'.blip = true ∧ sl'.hex = sl.hex ∧
      (sl.active = true → sl'.active = true) := by
  by_cases hd : RADAR_RADIUS_NM < t.distance_nm
  · exact ⟨sl, by rw [renderStep, if_pos hd]; exact hsl, hblip, rfl, fun h => h⟩
  · rcases hf : find_blip acc.1 t.hex with - | k
    · rcases hg : findFreeBlip acc.1 with - | j
      · refine ⟨sl, ?_, hblip, rfl, fun h => h⟩
        rw [renderStep, if_neg hd]
        simp only [hf, hg]
        exact hsl
      · have hij : i ≠ j := by
          intro hc
          subst hc
          obtain ⟨slj, hslj, hfree⟩ := scanIdx_eq_some hg
          rw [hsl] at hslj
          obtain rfl : sl = slj := by injection hslj
          rw [hblip] at hfree
          simp at hfree
        refine ⟨sl, ?_, hblip, rfl, fun h => h⟩
        rw [renderStep, if_neg hd]
        simp only [hf, hg]
        rw [getElem?_listModify_ne _ _ _ hij]
        exact hsl
    · by_cases hik : i = k
      · subst hik
        refine ⟨updateSlotCommon show_labels t sl, ?_,
          by rw [updateSlotCommon_blip]; exact hblip,
          updateSlotCommon_hex show_labels t sl,
          fun _ => updateSlotCommon_active show_labels t sl⟩
        rw [renderStep, if_neg hd]
        simp only [hf]
        rw [getElem?_listModify_self, hsl, Option.map_some']
      · refine ⟨sl, ?_, hblip, rfl, fun h => h⟩
        rw [renderStep, if_neg hd]
        simp only [hf]
        rw [getElem?_listModify_ne _ _ _ hik]
        exact hsl

/-- Fold version of blip-slot persistence. -/
theorem foldl_renderStep_preserves_blip (show_labels : Bool)
    (ts : List tracked_aircraft_t) :
    ∀ (acc : List aircraft_blip_t × List RenderDecision) (i : Nat)
      (sl : aircraft_blip_t), acc.1[i]? = some sl → sl.blip = true →
      ∃ sl', (ts.foldl (renderStep show_labels) acc).1[i]? = some sl' ∧
        sl'.blip = true ∧ sl'.hex = sl.hex ∧
        (sl.active = true → sl'.active = true) := by
  induction ts with
  | nil => intro acc i sl hsl hblip; exact ⟨sl, hsl, hblip, rfl, fun h => h⟩
  | cons t rest ih =>
    intro acc i sl hsl hblip
    obtain ⟨sl', hsl', hblip', hhex', hact'⟩ :=
      renderStep_preserves_blip show_labels acc t hsl hblip
    obtain ⟨sl'', hsl'', hblip'', hhex'', hact''⟩ :=
      ih (renderStep show_labels acc t) i sl' hsl' hblip'
    exact ⟨sl'', by simpa using hsl'', hblip'', by rw [hhex'', hhex'],
      fun h => hact'' (hact' h)⟩

theorem find_blip_none {σ : List aircraft_blip_t} {hx : String}
    (hf : find_blip σ hx = none) :
    ∀ sl ∈ σ, sl.blip = true → sl.hex ≠ hx := by
  intro sl hsl hblip hcontra
  have := (scanIdx_eq_none_iff.mp hf) sl hsl
  rw [hblip, hcontra] at this
  simp at this

theorem find_blip_some {σ : List aircraft_blip_t} {hx : String} {k : Nat}
    (hf : find_blip σ hx = some k) :
    ∃ sl, σ[k]? = some sl ∧ sl.blip = true ∧ sl.hex = hx := by
  obtain ⟨sl, hsl, hp⟩ := scanIdx_eq_some hf
  rw [Bool.and_eq_true] at hp
  exact ⟨sl, hsl, hp.1, eq_of_beq hp.2⟩

theorem renderInv_markInactive (ts : List tracked_aircraft_t)
    (st : List aircraft_blip_t) : renderInv ts (markInactive st) := by
  intro i sl hsl hact
  rw [markInactive_getElem?] at hsl
  rcases h : st[i]? with - | sl₀
  · rw [h] at hsl; simp at hsl
  · rw [h, Option.map_some'] at hsl
    have heq : ({ sl₀ with active := false } : aircraft_blip_t) = sl := by
      injection hsl
    rw [← heq] at hact
    simp at hact

theorem renderStep_preserves_renderInv (show_labels : Bool)
    (ts : List tracked_aircraft_t)
    (acc : List aircraft_blip_t × List RenderDecision)
    (t : tracked_aircraft_t) (ht : t ∈ ts) (hlen : t.hex.length ≤ 7)
    (hinv : renderInv ts acc.1) :
    renderInv ts (renderStep show_labels acc t).1 := by
  by_cases hd : RADAR_RADIUS_NM < t.distance_nm
  · rw [renderStep, if_pos hd]; exact hinv
  · rcases hf : find_blip acc.1 t.hex with - | k
    · rcases hg : findFreeBlip acc.1 with - | j
      · rw [renderStep, if_neg hd]
        simp only [hf, hg]
        exact hinv
      · rw [renderStep, if_neg hd]
        simp only [hf, hg]
        obtain ⟨slj, hslj, hfreej⟩ := scanIdx_eq_some hg
        have hjblip : slj.blip = false := by
          revert hfreej
          rcases h : slj.blip with - | -
          · simp [h]
          · simp [h]
        intro i sl hsl hact
        by_cases hij : i = j
        · subst hij
          rw [getElem?_listModify_self, hslj, Option.map_some'] at hsl
          have hne : updateSlotCommon show_labels t (createSlotObjects t slj) =
              sl := by injection hsl
          have hblip : sl.blip = true := by
            rw [← hne]; rfl
          have hhex : sl.hex = t.hex := by
            rw [← hne]
            show cStrCopy 7 t.hex = t.hex
            exact cStrCopy_of_length_le hlen
          refine ⟨hblip, ?_, t, ht, hd, hhex⟩
          rw [hhex]
          apply scanIdx_eq_some_of (b := sl)
          · rw [getElem?_listModify_self, hslj, Option.map_some', hne]
          · simp [hblip, hhex]
          · intro m hm c hc
            have hmj : m ≠ i := by omega
            rw [getElem?_listModify_ne _ _ _ hmj] at hc
            exact scanIdx_eq_none_iff.mp hf c (mem_of_getElem?_some hc)
        · rw [getElem?_listModify_ne _ _ _ hij] at hsl
          obtain ⟨hblip, hfind, hex⟩ := hinv i sl hsl hact
          refine ⟨hblip, ?_, hex⟩
          rw [show find_blip (listModify acc.1 j
              (fun sl => updateSlotCommon show_labels t
                (createSlotObjects t sl))) sl.hex = find_blip acc.1 sl.hex
            from ?_]
          · exact hfind
          · apply scanIdx_congr_pointwise
            intro m
            by_cases hmj : m = j
            · subst hmj
              rw [getElem?_listModify_self, hslj, Option.map_some',
                Option.map_some', Option.map_some']
              have h1 : (slj.blip && slj.hex == sl.hex) = false := by
                simp [hjblip]
              have hsne : sl.hex ≠ t.hex :=
                find_blip_none hf sl (mem_of_getElem?_some hsl) hblip
              have h2 : ((updateSlotCommon show_labels t
                  (createSlotObjects t slj)).blip &&
                  (updateSlotCommon show_labels t
                    (createSlotObjects t slj)).hex == sl.hex) = false := by
                show (true && cStrCopy 7 t.hex == sl.hex) = false
                rw [cStrCopy_of_length_le hlen]
                simp
                exact fun h => hsne h.symm
              rw [h1, h2]
            · rw [getElem?_listModify_ne _ _ _ hmj]
    · rw [renderStep, if_neg hd]
      simp only [hf]
      obtain ⟨slk, hslk, hkblip, hkhex⟩ := find_blip_some hf
      have hsame : sameBlips acc.1
          (listModify acc.1 k (updateSlotCommon show_labels t)) := by
        intro m
        by_cases hmk : m = k
        · subst hmk
          rw [getElem?_listModify_self, hslk, Option.map_some',
            Option.map_some', Option.map_some']
          rfl
        · rw [getElem?_listModify_ne _ _ _ hmk]
      intro i sl hsl hact
      by_cases hik : i = k
      · subst hik
        rw [getElem?_listModify_self, hslk, Option.map_some'] at hsl
        have hne : updateSlotCommon show_labels t slk = sl := by injection hsl
        have hblip : sl.blip = true := by rw [← hne]; exact hkblip
        have hhex : sl.hex = t.hex := by rw [← hne]; exact hkhex
        refine ⟨hblip, ?_, t, ht, hd, hhex⟩
        rw [← find_blip_congr hsame, hhex]
        exact hf
      · rw [getElem?_listModify_ne _ _ _ hik] at hsl
        obtain ⟨hblip, hfind, hex⟩ := hinv i sl hsl hact
        exact ⟨hblip, by rw [← find_blip_congr hsame]; exact hfind, hex⟩

theorem foldl_renderStep_preserves_renderInv (show_labels : Bool)
    (ts : List tracked_aircraft_t) :
    ∀ (rest : List tracked_aircraft_t)
      (acc : List aircraft_blip_t × List RenderDecision),
      (∀ t ∈ rest, t ∈ ts ∧ t.hex.length ≤ 7) → renderInv ts acc.1 →
      renderInv ts (rest.foldl (renderStep show_labels) acc).1 := by
  intro rest
  induction rest with
  | nil => intro acc _ h; exact h
  | cons t rest' ih =>
    intro acc hwf h
    rw [List.foldl_cons]
    exact ih _ (fun x hx => hwf x (by simp [hx]))
      (renderStep_preserves_renderInv show_labels ts acc t (hwf t (by simp)).1
        (hwf t (by simp)).2 h)

theorem getElem?_of_mem' {l : List α} {a : α} (h : a ∈ l) :
    ∃ i : Nat, l[i]? = some a := by
  obtain ⟨i, hlt, hi⟩ := List.getElem_of_mem h
  exact ⟨i, by rw [List.getElem?_eq_some]; exact ⟨hlt, hi⟩⟩

/-- Every in-range target of a cycle either trips the capacity drop warning or
ends the aircraft loop with a live, touched slot holding its hex. -/
theorem foldl_renderStep_drop_or_touched (show_labels : Bool) :
    ∀ (rest : List tracked_aircraft_t)
      (acc : List aircraft_blip_t × List RenderDecision),
      (∀ t ∈ rest, t.hex.length ≤ 7) →
      ∀ t ∈ rest, ¬RADAR_RADIUS_NM < t.distance_nm →
        RenderDecision.drop t.hex ∈ (rest.foldl (renderStep show_labels) acc).2 ∨
        ∃ (i : Nat) (sl : aircraft_blip_t),
          (rest.foldl (renderStep show_labels) acc).1[i]? = some sl ∧
          sl.blip = true ∧ sl.active = true ∧ sl.hex = t.hex := by
  intro rest
  induction rest with
  | nil => intro acc _ t hmem; simp at hmem
  | cons u us ih =>
    intro acc hlen t hmem hd
    rcases List.mem_cons.mp hmem with rfl | hmem
    · rcases hf : find_blip acc.1 t.hex with - | k
      · rcases hg : findFreeBlip acc.1 with - | j
        · left
          rw [List.foldl_cons]
          apply foldl_renderStep_events_mono
          have hstep : renderStep show_labels acc t =
              (acc.1, acc.2 ++ [RenderDecision.drop t.hex]) := by
            rw [renderStep, if_neg hd]
            simp only [hf, hg]
          rw [hstep]
          simp
        · right
          obtain ⟨slj, hslj, -⟩ := scanIdx_eq_some hg
          have hstep : (renderStep show_labels acc t).1[j]? =
              some (updateSlotCommon show_labels t (createSlotObjects t slj)) := by
            rw [renderStep, if_neg hd]
            simp only [hf, hg]
            rw [getElem?_listModify_self, hslj, Option.map_some']
          have hblip : (updateSlotCommon show_labels t
              (createSlotObjects t slj)).blip = true := rfl
          obtain ⟨sl', hsl', hblip', hhex', hact'⟩ :=
            foldl_renderStep_preserves_blip show_labels us
              (renderStep show_labels acc t) j _ hstep hblip
          refine ⟨j, sl', hsl', hblip', hact' rfl, ?_⟩
          rw [hhex']
          show cStrCopy 7 t.hex = t.hex
          exact cStrCopy_of_length_le (hlen t (by simp))
      · right
        obtain ⟨slk, hslk, hkblip, hkhex⟩ := find_blip_some hf
        have hstep : (renderStep show_labels acc t).1[k]? =
            some (updateSlotCommon show_labels t slk) := by
          rw [renderStep, if_neg hd]
          simp only [hf]
          rw [getElem?_listModify_self, hslk, Option.map_some']
        have hblip : (updateSlotCommon show_labels t slk).blip = true := by
          rw [updateSlotCommon_blip]; exact hkblip
        obtain ⟨sl', hsl', hblip', hhex', hact'⟩ :=
          foldl_renderStep_preserves_blip show_labels us
            (renderStep show_labels acc t) k _ hstep hblip
        refine ⟨k, sl', hsl', hblip', hact' rfl, ?_⟩
        rw [hhex', updateSlotCommon_hex, hkhex]
    · exact ih (renderStep show_labels acc u)
        (fun x hx => hlen x (by simp [hx])) t hmem hd

theorem sameBlips_markInactive (σ : List aircraft_blip_t) :
    sameBlips σ (markInactive σ) := by
  intro i
  rw [markInactive_getElem?]
  rcases h : σ[i]? with - | sl
  · simp
  · simp only [Option.map_some']
    rfl

theorem poolReady_markInactive (ts : List tracked_aircraft_t)
    (σ : List aircraft_blip_t) (h : poolReady ts σ) :
    poolReady ts (markInactive σ) := by
  intro i sl hsl hblip
  rw [markInactive_getElem?] at hsl
  rcases h0 : σ[i]? with - | sl₀
  · rw [h0] at hsl; simp at hsl
  · rw [h0, Option.map_some'] at hsl
    have heq : ({ sl₀ with active := false } : aircraft_blip_t) = sl := by
      injection hsl
    have hblip₀ : sl₀.blip = true := by rw [← heq] at hblip; exact hblip
    have hhex₀ : sl₀.hex = sl.hex := by rw [← heq]
    obtain ⟨hfind, hex⟩ := h i sl₀ h0 hblip₀
    refine ⟨?_, ?_⟩
    · rw [← find_blip_congr (sameBlips_markInactive σ), ← hhex₀]
      exact hfind
    · rw [← hhex₀]
      exact hex

/-- The second cycle's aircraft loop: when every in-range target already has a
findable blip, every step takes the update path — the pool's blips and hexes
never change, only `update` decisions are appended, touched slots stay
touched, and each in-range target's found slot ends up touched. -/
theorem call2_fold_updates (show_labels : Bool)
    (ts : List tracked_aircraft_t) (σ₀ : List aircraft_blip_t)
    (hfind : ∀ t ∈ ts, ¬RADAR_RADIUS_NM < t.distance_nm →
      (find_blip σ₀ t.hex).isSome = true) :
    ∀ (rest : List tracked_aircraft_t)
      (acc : List aircraft_blip_t × List RenderDecision),
      (∀ t ∈ rest, t ∈ ts) → sameBlips σ₀ acc.1 →
      sameBlips σ₀ (rest.foldl (renderStep show_labels) acc).1 ∧
      (∀ e ∈ (rest.foldl (renderStep show_labels) acc).2,
        e ∈ acc.2 ∨ e.isUpdate = true) ∧
      (∀ (i : Nat) (sl : aircraft_blip_t), acc.1[i]? = some sl →
        sl.active = true →
        ∃ sl', (rest.foldl (renderStep show_labels) acc).1[i]? = some sl' ∧
          sl'.active = true) ∧
      (∀ t ∈ rest, ¬RADAR_RADIUS_NM < t.distance_nm →
        ∀ k, find_blip σ₀ t.hex = some k →
        ∃ sl', (rest.foldl (renderStep show_labels) acc).1[k]? = some sl' ∧
          sl'.active = true) := by
  intro rest
  induction rest with
  | nil =>
    intro acc _ hrel
    refine ⟨hrel, fun e he => Or.inl he, fun i sl hsl hact => ⟨sl, hsl, hact⟩,
      fun t ht => by simp at ht⟩
  | cons u us ih =>
    intro acc hsub hrel
    by_cases hd : RADAR_RADIUS_NM < u.distance_nm
    · have hstep : renderStep show_labels acc u = acc := by
        rw [renderStep, if_pos hd]
      rw [List.foldl_cons, hstep]
      obtain ⟨i1, i2, i3, i4⟩ := ih acc (fun x hx => hsub x (by simp [hx])) hrel
      refine ⟨i1, i2, i3, ?_⟩
      intro t ht hdt k hk
      rcases List.mem_cons.mp ht with rfl | ht
      · exact absurd hd hdt
      · exact i4 t ht hdt k hk
    · obtain ⟨k, hk⟩ : ∃ k, find_blip σ₀ u.hex = some k := by
        have := hfind u (hsub u (by simp)) hd
        rcases h : find_blip σ₀ u.hex with - | k
        · rw [h] at this; simp at this
        · exact ⟨k, rfl⟩
      have hkacc : find_blip acc.1 u.hex = some k := by
        rw [← find_blip_congr hrel]
        exact hk
      obtain ⟨slk, hslk, hkblip, hkhex⟩ := find_blip_some hkacc
      have hstep : renderStep show_labels acc u =
          (listModify acc.1 k (updateSlotCommon show_labels u),
           acc.2 ++ [RenderDecision.update u.hex
             (show_labels && !(u.callsign == ""))
             (show_labels && decide (0 < u.altitude))]) := by
        rw [renderStep, if_neg hd]
        simp only [hkacc]
      have hrel' : sameBlips σ₀
          (listModify acc.1 k (updateSlotCommon show_labels u)) := by
        intro m
        by_cases hmk : m = k
        · subst hmk
          rw [getElem?_listModify_self, hslk, Option.map_some', hrel m, hslk,
            Option.map_some']
          rfl
        · rw [getElem?_listModify_ne _ _ _ hmk]
          exact hrel m
      rw [List.foldl_cons, hstep]
      obtain ⟨i1, i2, i3, i4⟩ := ih
        (listModify acc.1 k (updateSlotCommon show_labels u),
         acc.2 ++ [RenderDecision.update u.hex
           (show_labels && !(u.callsign == ""))
           (show_labels && decide (0 < u.altitude))])
        (fun x hx => hsub x (by simp [hx])) hrel'
      refine ⟨i1, ?_, ?_, ?_⟩
      · intro e he
        rcases i2 e he with he' | he'
        · rcases List.mem_append.mp he' with he'' | he''
          · exact Or.inl he''
          · right
            simp only [List.mem_singleton] at he''
            subst he''
            rfl
        · exact Or.inr he'
      · intro i sl hsl hact
        by_cases hik : i = k
        · subst hik
          exact i3 i _ (by rw [getElem?_listModify_self, hslk,
              Option.map_some']) (updateSlotCommon_active show_labels u slk)
        · exact i3 i sl (by rw [getElem?_listModify_ne _ _ _ hik]; exact hsl)
            hact
      · intro t ht hdt k' hk'
        rcases List.mem_cons.mp ht with rfl | ht
        · have hkk : k' = k := by
            rw [hk] at hk'
            injection hk' with h
            exact h.symm
          subst hkk
          exact i3 k' _ (by rw [getElem?_listModify_self, hslk,
              Option.map_some']) (updateSlotCommon_active show_labels t slk)
        · exact i4 t ht hdt k' hk'

/-- Postconditions of one full render update: after the sweep the pool is
`poolReady`, and when no capacity drop was signalled every in-range target has
a findable blip. -/
theorem call1_poolReady (show_labels : Bool) (st : List aircraft_blip_t)
    (ts : List tracked_aircraft_t) (hlen : ∀ t ∈ ts, t.hex.length ≤ 7) :
    poolReady ts (radar_renderer_update_aircraft show_labels st ts).1 ∧
    ((radar_renderer_update_aircraft show_labels st ts).2.all
        (fun e => !e.isDrop) = true →
      ∀ t ∈ ts, ¬RADAR_RADIUS_NM < t.distance_nm →
        (find_blip (radar_renderer_update_aircraft show_labels st ts).1
          t.hex).isSome = true) := by
  have hinv : renderInv ts
      (ts.foldl (renderStep show_labels) (markInactive st, [])).1 :=
    foldl_renderStep_preserves_renderInv show_labels ts ts
      (markInactive st, []) (fun t ht => ⟨ht, hlen t ht⟩)
      (renderInv_markInactive ts st)
  have hres1 : (radar_renderer_update_aircraft show_labels st ts).1 =
      (deleteSweep (ts.foldl (renderStep show_labels)
        (markInactive st, [])).1).1 := rfl
  have hres2 : (radar_renderer_update_aircraft show_labels st ts).2 =
      (ts.foldl (renderStep show_labels) (markInactive st, [])).2 ++
      (deleteSweep (ts.foldl (renderStep show_labels)
        (markInactive st, [])).1).2 := rfl
  constructor
  · rw [hres1]
    intro i sl hsl hblip
    rw [deleteSweep_getElem?] at hsl
    rcases h0 : (ts.foldl (renderStep show_labels)
        (markInactive st, [])).1[i]? with - | sl₀
    · rw [h0] at hsl; simp at hsl
    · rw [h0, Option.map_some'] at hsl
      have heq : (if sl₀.blip && !sl₀.active then delete_blip sl₀ else sl₀) =
          sl := by injection hsl
      by_cases hcond : sl₀.blip && !sl₀.active
      · rw [if_pos hcond] at heq
        rw [← heq] at hblip
        exact absurd hblip (by simp [delete_blip])
      · rw [if_neg hcond] at heq
        subst heq
        have hact : sl₀.active = true := by
          revert hcond
          rcases ha : sl₀.active with - | -
          · intro hc; exact absurd (by simp [hblip, ha]) hc
          · intro _; rfl
        obtain ⟨-, hfind₁, hex⟩ := hinv i sl₀ h0 hact
        refine ⟨?_, hex⟩
        apply scanIdx_eq_some_of (b := sl₀)
        · rw [deleteSweep_getElem?, h0, Option.map_some', if_neg hcond]
        · simp [hblip]
        · intro m hm c hc
          rw [deleteSweep_getElem?] at hc
          rcases h1 : (ts.foldl (renderStep show_labels)
              (markInactive st, [])).1[m]? with - | c₀
          · rw [h1] at hc; simp at hc
          · rw [h1, Option.map_some'] at hc
            have heqc : (if c₀.blip && !c₀.active then delete_blip c₀
                else c₀) = c := by injection hc
            by_cases hcc : c₀.blip && !c₀.active
            · rw [if_pos hcc] at heqc
              rw [← heqc]
              simp [delete_blip]
            · rw [if_neg hcc] at heqc
              subst heqc
              exact scanIdx_first hfind₁ m hm c₀ h1
  · intro hnodrop t ht hd
    rcases foldl_renderStep_drop_or_touched show_labels ts
        (markInactive st, []) hlen t ht hd with hdrop | ⟨i, sl, hsl, hblip,
        hact, hhex⟩
    · exfalso
      have := List.all_eq_true.mp hnodrop (RenderDecision.drop t.hex)
        (by rw [hres2]; exact List.mem_append_left _ hdrop)
      simp [RenderDecision.isDrop] at this
    · rw [hres1]
      have hcond : (sl.blip && !sl.active) = false := by simp [hblip, hact]
      apply scanIdx_isSome_of_exists (i := i) (b := sl)
      · rw [deleteSweep_getElem?, hsl, Option.map_some', if_neg (by simp [hcond])]
      · simp [hblip, hhex]

/-- C8 (amended): two consecutive render updates on the same target set emit
only `update` decisions the second time, provided the first call signalled no
capacity drop (then every target kept its render slot). Without that proviso
the claim fails: see the counterexample. -/
theorem c8_second_identical_cycle_all_updates (show_labels : Bool)
    (st : List aircraft_blip_t) (ts : List tracked_aircraft_t)
    (hlen : ∀ t ∈ ts, t.hex.length ≤ 7)
    (hnodrop : (radar_renderer_update_aircraft show_labels st ts).2.all
      (fun e => !e.isDrop) = true) :
    ∀ e ∈ (radar_renderer_update_aircraft show_labels
        (radar_renderer_update_aircraft show_labels st ts).1 ts).2,
      e.isUpdate = true := by
  obtain ⟨hpool, hfindB⟩ := call1_poolReady show_labels st ts hlen
  have hfind' := hfindB hnodrop
  have hpool₀ : poolReady ts
      (markInactive (radar_renderer_update_aircraft show_labels st ts).1) :=
    poolReady_markInactive ts _ hpool
  have hfind₀ : ∀ t ∈ ts, ¬RADAR_RADIUS_NM < t.distance_nm →
      (find_blip (markInactive
        (radar_renderer_update_aircraft show_labels st ts).1) t.hex).isSome =
      true := by
    intro t ht hd
    rw [← find_blip_congr (sameBlips_markInactive
      (radar_renderer_update_aircraft show_labels st ts).1)]
    exact hfind' t ht hd
  obtain ⟨i1, i2, i3, i4⟩ := call2_fold_updates show_labels ts
    (markInactive (radar_renderer_update_aircraft show_labels st ts).1)
    hfind₀ ts
    (markInactive (radar_renderer_update_aircraft show_labels st ts).1, [])
    (fun _ h => h) (fun _ => rfl)
  have hallactive : ∀ sl ∈ (ts.foldl (renderStep show_labels)
      (markInactive (radar_renderer_update_aircraft show_labels st ts).1,
        [])).1, sl.blip = true → sl.active = true := by
    intro sl hmem hblip
    obtain ⟨i, hi⟩ := getElem?_of_mem' hmem
    have h0 := i1 i
    rw [hi, Option.map_some'] at h0
    rcases h00 : (markInactive
        (radar_renderer_update_aircraft show_labels st ts).1)[i]? with - | sl₀
    · rw [h00] at h0; simp at h0
    · rw [h00, Option.map_some'] at h0
      have hbh : blipHex sl₀ = blipHex sl := by injection h0
      have hb₀ : sl₀.blip = true := by
        have hfst : sl₀.blip = sl.blip := congrArg Prod.fst hbh
        rw [hfst, hblip]
      have hx₀ : sl₀.hex = sl.hex := congrArg Prod.snd hbh
      obtain ⟨hfind0, t, ht, hdt, hhex⟩ := hpool₀ i sl₀ h00 hb₀
      have hk : find_blip (markInactive
          (radar_renderer_update_aircraft show_labels st ts).1) t.hex =
          some i := by
        rw [← hhex]
        exact hfind0
      obtain ⟨sl', hsl', hact'⟩ := i4 t ht hdt i hk
      rw [hi] at hsl'
      have : sl = sl' := by injection hsl'
      rw [this]
      exact hact'
  have hsweep := deleteSweep_of_all_active _ hallactive
  intro e he
  have he' : e ∈ (ts.foldl (renderStep show_labels)
      (markInactive (radar_renderer_update_aircraft show_labels st ts).1,
        [])).2 ++ (deleteSweep (ts.foldl (renderStep show_labels)
      (markInactive (radar_renderer_update_aircraft show_labels st ts).1,
        [])).1).2 := he
  rw [hsweep] at he'
  simp only [List.append_nil] at he'
  rcases i2 e he' with hin | hupd
  · simp at hin
  · exact hupd

set_option maxRecDepth 1000000 in
/-- C8 (counterexample): the claim quantifies over any two consecutive calls
with the same in-range target set. Starting from a full pool of 64 blips, the
set `swapSet` (one aircraft left, one new "ZZ" appeared, all in range) is
reconciled twice: the first call drops "ZZ" (pool full) but frees the
departed aircraft's slot, so the second call — same set — emits a `create`,
not only updates. -/
theorem c8_counterexample :
    (swapSet.all (fun t => !decide (RADAR_RADIUS_NM < t.distance_nm)) = true) ∧
    ((radar_renderer_update_aircraft true
        (radar_renderer_update_aircraft true fullPool swapSet).1
        swapSet).2.any RenderDecision.isCreate = true) := by
  constructor
  · decide
  · decide

/-- C8 (witness): the amended theorem applied to a one-target set from the
empty pool (first call creates, emits no drop; second call only updates). -/
theorem c8_witness :
    (∀ t ∈ [demoTarget "AAA" 1], t.hex.length ≤ 7) ∧
    ((radar_renderer_update_aircraft true initBlips
        [demoTarget "AAA" 1]).2.all (fun e => !e.isDrop) = true) ∧
    ∀ e ∈ (radar_renderer_update_aircraft true
        (radar_renderer_update_aircraft true initBlips
          [demoTarget "AAA" 1]).1 [demoTarget "AAA" 1]).2,
      e.isUpdate = true :=
  ⟨by decide, by decide,
   c8_second_identical_cycle_all_updates true initBlips [demoTarget "AAA" 1]
     (by decide) (by decide)⟩

end Radar
